import Mathlib

/-!
Shallow embedding of the llm-throttle rate limiter (TypeScript) in Lean 4.

Embedded components:
* `TokenBucket` (src/token-bucket.ts): lazy-refill token bucket.
  The implicit wall clock `this._clock()` is made explicit: every operation
  that reads the clock takes a `now : ℚ` argument (milliseconds).
* `Throttle` (src/index.ts, class LLMThrottle): dual RPM/TPM admission
  control, consumption ledger, compensation debt.

Numbers are modelled as rationals (the source uses JS numbers and only
performs field arithmetic, `Math.min`/`Math.max`/`Math.ceil` on them).
Thrown JS exceptions are modelled with `Except ThrottleError`; each of the
source's `throw` sites happens before any field mutation on the throwing
path, so an `Except.error` result corresponds to the source object being
left unchanged up to lazy refills already performed.
The fire-and-forget persistence collaborator (storage) never affects the
in-memory state (all its errors are swallowed, nothing is awaited), so it
is omitted; likewise the logger, whose calls carry no state.
-/

namespace LLMThrottleSpec

/-- Failure reason carried by a denied admission check or a rate-limit
error: `rpm_limit` (request-rate dimension) or `tpm_limit` (volume
dimension). From src/types/index.ts. -/
inductive LimitReason where
  | rpm_limit
  | tpm_limit
deriving Repr, DecidableEq

/-- Errors thrown by the source, classified as in src/errors.ts and the
plain `Error` throw sites of src/index.ts / src/token-bucket.ts. -/
inductive ThrottleError where
  | invalidConfig (msg : String)
  | invalidArgument (msg : String)
  | notFound (requestId : String)
  | rateLimit (reason : LimitReason) (availableIn : ℚ)
  | invalidState (msg : String)
deriving Repr, DecidableEq

/-- `TokenBucketState` from src/types/index.ts (snapshot of a bucket). -/
structure TokenBucketState where
  available : ℚ
  capacity : ℚ
  lastRefill : ℚ
deriving Repr, DecidableEq

/-- The `TokenBucket` class state (src/token-bucket.ts): `_capacity`,
`_available`, `_refillRate` (units per second), `_lastRefill` (ms). -/
structure TokenBucket where
  capacity : ℚ
  available : ℚ
  refillRate : ℚ
  lastRefill : ℚ
deriving Repr, DecidableEq

namespace TokenBucket

/-- The constructor `new TokenBucket(config)` with its `validateConfig`
guards (src/token-bucket.ts lines 31-56). `initialTokens ?? capacity`
is the JS nullish-coalescing default. -/
def create (capacity refillRate : ℚ) (initialTokens : Option ℚ) (now : ℚ) :
    Except ThrottleError TokenBucket :=
  if capacity ≤ 0 then
    .error (.invalidConfig "Capacity must be greater than 0")
  else if refillRate ≤ 0 then
    .error (.invalidConfig "Refill rate must be greater than 0")
  else if (match initialTokens with | some i => decide (i < 0) | none => false : Bool) then
    .error (.invalidConfig "Initial tokens cannot be negative")
  else if (match initialTokens with | some i => decide (capacity < i) | none => false : Bool) then
    .error (.invalidConfig "Initial tokens cannot exceed capacity")
  else
    .ok { capacity := capacity, available := initialTokens.getD capacity,
          refillRate := refillRate, lastRefill := now }

/-- `private refill()` (src/token-bucket.ts lines 71-83): lazy refill.
`timePassed = (now - lastRefill) / 1000` seconds; if no time passed,
no change; otherwise add `timePassed * refillRate`, capped at capacity,
and stamp `lastRefill = now`. -/
def refill (b : TokenBucket) (now : ℚ) : TokenBucket :=
  let timePassed := (now - b.lastRefill) / 1000
  if timePassed ≤ 0 then b
  else
    { b with
      available := min b.capacity (b.available + timePassed * b.refillRate)
      lastRefill := now }

/-- The `available` getter: refill, then read `_available`. Returns the
value together with the refilled bucket (the getter mutates). -/
def availableNow (b : TokenBucket) (now : ℚ) : ℚ × TokenBucket :=
  let b := b.refill now
  (b.available, b)

/-- `hasTokens(count)` (lines 85-89): negative count is `false` without
refilling; otherwise refill then compare. -/
def hasTokens (b : TokenBucket) (count now : ℚ) : Bool × TokenBucket :=
  if count < 0 then (false, b)
  else
    let b := b.refill now
    (decide (count ≤ b.available), b)

/-- `consume(count)` (lines 91-103): throws on negative count; refills;
all-or-nothing debit. -/
def consume (b : TokenBucket) (count now : ℚ) :
    Except ThrottleError (Bool × TokenBucket) :=
  if count < 0 then .error (.invalidArgument "Cannot consume negative tokens")
  else
    let b := b.refill now
    if count ≤ b.available then
      .ok (true, { b with available := b.available - count })
    else
      .ok (false, b)

/-- `refund(count)` (lines 105-112): throws on negative count; adds,
capped at capacity. Note: the source does NOT refill here. -/
def refund (b : TokenBucket) (count : ℚ) :
    Except ThrottleError TokenBucket :=
  if count < 0 then .error (.invalidArgument "Cannot refund negative tokens")
  else .ok { b with available := min b.capacity (b.available + count) }

/-- `timeUntilNextToken()` (lines 114-118): refill; 0 if a token is
available, else `ceil((1 - available) / refillRate * 1000)` ms. -/
def timeUntilNextToken (b : TokenBucket) (now : ℚ) : ℚ × TokenBucket :=
  let b := b.refill now
  if 1 ≤ b.available then (0, b)
  else (((⌈(1 - b.available) / b.refillRate * 1000⌉ : ℤ) : ℚ), b)

/-- `timeUntilTokens(count)` (lines 120-128): 0 for `count ≤ 0` (before
any refill); otherwise refill and compute the wait. -/
def timeUntilTokens (b : TokenBucket) (count now : ℚ) : ℚ × TokenBucket :=
  if count ≤ 0 then (0, b)
  else
    let b := b.refill now
    if count ≤ b.available then (0, b)
    else (((⌈(count - b.available) / b.refillRate * 1000⌉ : ℤ) : ℚ), b)

/-- `reset()` (lines 130-134). -/
def reset (b : TokenBucket) (now : ℚ) : TokenBucket :=
  { b with available := b.capacity, lastRefill := now }

/-- `getState()` (lines 139-146): refill, then snapshot. -/
def getState (b : TokenBucket) (now : ℚ) : TokenBucketState × TokenBucket :=
  let b := b.refill now
  ({ available := b.available, capacity := b.capacity, lastRefill := b.lastRefill }, b)

/-- `restoreState(state)` (lines 151-161): validates fully before
mutating; on success overwrites `available` and `lastRefill` only. -/
def restoreState (b : TokenBucket) (s : TokenBucketState) :
    Except ThrottleError TokenBucket :=
  if s.available < 0 ∨ s.capacity < s.available then
    .error (.invalidState "Invalid state: available tokens out of range")
  else if s.capacity ≠ b.capacity then
    .error (.invalidState "Invalid state: capacity mismatch")
  else
    .ok { b with available := s.available, lastRefill := s.lastRefill }

end TokenBucket

/-- One externally triggerable bucket mutation, for stating the bucket
invariant over arbitrary operation sequences: a lazy refill (any read at
some clock value), `consume`, `refund`, `reset`, or `restoreState`. An
operation that throws (negative count, invalid snapshot) leaves the
bucket unchanged, exactly as the source's guards throw before mutating. -/
inductive BucketOp where
  | refillAt (now : ℚ)
  | consumeAt (count now : ℚ)
  | refundAt (count : ℚ)
  | resetAt (now : ℚ)
  | restoreAt (s : TokenBucketState)

/-- Apply one `BucketOp` to a bucket. -/
def TokenBucket.applyOp (b : TokenBucket) : BucketOp → TokenBucket
  | .refillAt now => b.refill now
  | .consumeAt count now =>
    match b.consume count now with
    | .ok (_, b2) => b2
    | .error _ => b
  | .refundAt count =>
    match b.refund count with
    | .ok b2 => b2
    | .error _ => b
  | .resetAt now => b.reset now
  | .restoreAt s =>
    match b.restoreState s with
    | .ok b2 => b2
    | .error _ => b

/-- Apply a sequence of bucket operations, oldest first. -/
def TokenBucket.applyOps (b : TokenBucket) (ops : List BucketOp) : TokenBucket :=
  ops.foldl applyOp b

/-- `ConsumptionRecord` (src/types/index.ts lines 48-60). The opaque
`metadata` payload is omitted: the engine never inspects it. In records
created by the engine `estimatedTokens` is always set, so it is a plain
field; `actualTokens` is set only by reconciliation. -/
structure ConsumptionRecord where
  timestamp : ℚ
  tokens : ℚ
  requestId : String
  estimatedTokens : ℚ
  actualTokens : Option ℚ
  compensationDebt : ℚ
deriving Repr, DecidableEq

/-- `AdjustmentFailureStrategy` (src/types/index.ts). -/
inductive AdjustmentFailureStrategy where
  | strict
  | warn
  | compensate
deriving Repr, DecidableEq

/-- `RateLimitCheckResult` (src/types/index.ts lines 62-71); the
`availableTokens` object is flattened into two fields. -/
structure RateLimitCheckResult where
  allowed : Bool
  reason : Option LimitReason
  availableIn : Option ℚ
  availableRpm : ℚ
  availableTpm : ℚ
deriving Repr, DecidableEq

/-- Mutable state of the `LLMThrottle` class (src/index.ts lines 52-67)
together with the configuration fields fixed at construction. The
storage collaborator, logger, async lock and `initialized` flag are
omitted (none of them influences the in-memory results modelled here). -/
structure Throttle where
  rpmBucket : TokenBucket
  tpmBucket : TokenBucket
  consumptionHistory : List ConsumptionRecord
  compensationDebt : ℚ
  historyRetentionMs : ℚ
  maxHistoryRecords : ℕ
  efficiencyWindowSize : ℕ
  adjustmentFailureStrategy : AdjustmentFailureStrategy
deriving Repr, DecidableEq

/-- JS `x || default` for an optional numeric config entry: `0` is falsy
and also falls back to the default. -/
def jsOrQ (o : Option ℚ) (d : ℚ) : ℚ :=
  match o with
  | some x => if x = 0 then d else x
  | none => d

/-- JS `x || default` for an optional natural-number config entry. -/
def jsOrNat (o : Option ℕ) (d : ℕ) : ℕ :=
  match o with
  | some x => if x = 0 then d else x
  | none => d

/-- The subset of `LLMThrottleConfig` (src/index.ts lines 20-47) the
model needs; clock, logger, storage and validation rules are omitted. -/
structure ThrottleConfig where
  rpm : ℚ
  tpm : ℚ
  burstRPM : Option ℚ := none
  burstTPM : Option ℚ := none
  adjustmentFailureStrategy : Option AdjustmentFailureStrategy := none
  maxHistoryRecords : Option ℕ := none
  historyRetentionMs : Option ℚ := none
  efficiencyWindowSize : Option ℕ := none

/-- The `LLMThrottle` constructor (src/index.ts lines 73-118) after a
successful `validateAndNormalizeConfig`: defaults applied with JS `||`
semantics, both buckets filled to their (burst) capacity, refill rate =
limit / 60 per second. -/
def mkThrottle (config : ThrottleConfig) (now : ℚ) : Throttle :=
  let rpmCapacity := jsOrQ config.burstRPM config.rpm
  let tpmCapacity := jsOrQ config.burstTPM config.tpm
  { rpmBucket :=
      { capacity := rpmCapacity, available := rpmCapacity,
        refillRate := config.rpm / 60, lastRefill := now }
    tpmBucket :=
      { capacity := tpmCapacity, available := tpmCapacity,
        refillRate := config.tpm / 60, lastRefill := now }
    consumptionHistory := []
    compensationDebt := 0
    historyRetentionMs := jsOrQ config.historyRetentionMs 60000
    maxHistoryRecords := jsOrNat config.maxHistoryRecords 10000
    efficiencyWindowSize := jsOrNat config.efficiencyWindowSize 50
    adjustmentFailureStrategy := config.adjustmentFailureStrategy.getD .warn }

/-- The guard `!requestId || requestId.trim() === ''` of `consume`
(src/index.ts line 197): true iff every character is whitespace
(vacuously true for the empty string). -/
def jsIsBlank (s : String) : Bool :=
  s.toList.all (fun c => c = ' ' ∨ c = '\t' ∨ c = '\n' ∨ c = '\r')

namespace Throttle

/-- `canProcess(estimatedTokens)` (src/index.ts lines 157-193). Throws
on a negative estimate; checks the RPM bucket for 1 token first, then
the TPM bucket for the estimate; every branch reports both buckets'
current availability (each read lazily refills the bucket it touches). -/
def canProcess (t : Throttle) (estimatedTokens now : ℚ) :
    Except ThrottleError (RateLimitCheckResult × Throttle) :=
  if estimatedTokens < 0 then
    .error (.invalidArgument "Estimated tokens cannot be negative")
  else
    let (hasRpm, rb) := t.rpmBucket.hasTokens 1 now
    if !hasRpm then
      let (wait, rb) := rb.timeUntilNextToken now
      let (ra, rb) := rb.availableNow now
      let (ta, tb) := t.tpmBucket.availableNow now
      .ok ({ allowed := false, reason := some .rpm_limit, availableIn := some wait,
             availableRpm := ra, availableTpm := ta },
           { t with rpmBucket := rb, tpmBucket := tb })
    else
      let (hasTpm, tb) := t.tpmBucket.hasTokens estimatedTokens now
      if !hasTpm then
        let (wait, tb) := tb.timeUntilTokens estimatedTokens now
        let (ra, rb) := rb.availableNow now
        let (ta, tb) := tb.availableNow now
        .ok ({ allowed := false, reason := some .tpm_limit, availableIn := some wait,
               availableRpm := ra, availableTpm := ta },
             { t with rpmBucket := rb, tpmBucket := tb })
      else
        let (ra, rb) := rb.availableNow now
        let (ta, tb) := tb.availableNow now
        .ok ({ allowed := true, reason := none, availableIn := none,
               availableRpm := ra, availableTpm := ta },
             { t with rpmBucket := rb, tpmBucket := tb })

/-- `private cleanupHistory()` (src/index.ts lines 496-520): drop
records with `timestamp ≤ now - historyRetentionMs`, then if still over
`maxHistoryRecords` remove the excess from the front (`splice(0, excess)`,
i.e. the oldest records). The warning log for large evictions carries no
state. -/
def cleanupHistory (t : Throttle) (now : ℚ) : Throttle :=
  let cutoff := now - t.historyRetentionMs
  let kept := t.consumptionHistory.filter (fun r => decide (cutoff < r.timestamp))
  let bounded :=
    if t.maxHistoryRecords < kept.length then
      kept.drop (kept.length - t.maxHistoryRecords)
    else kept
  { t with consumptionHistory := bounded }

/-- Synchronous `consume(requestId, estimatedTokens, metadata)`
(src/index.ts lines 196-236). -/
def consume (t : Throttle) (requestId : String) (estimatedTokens now : ℚ) :
    Except ThrottleError (Bool × Throttle) := do
  if jsIsBlank requestId then
    throw (.invalidArgument "Request ID cannot be empty")
  let totalTokensNeeded := estimatedTokens + t.compensationDebt
  let (check, t) ← t.canProcess totalTokensNeeded now
  if !check.allowed then
    return (false, t)
  let (_, rb) ← t.rpmBucket.consume 1 now
  let (_, tb) ← t.tpmBucket.consume totalTokensNeeded now
  let appliedCompensation := t.compensationDebt
  let record : ConsumptionRecord :=
    { timestamp := now, tokens := estimatedTokens, requestId := requestId,
      estimatedTokens := estimatedTokens, actualTokens := none,
      compensationDebt := appliedCompensation }
  let t := { t with rpmBucket := rb, tpmBucket := tb, compensationDebt := 0,
                    consumptionHistory := t.consumptionHistory ++ [record] }
  return (true, t.cleanupHistory now)

/-- Replace the first record with the given `requestId` (the object that
`Array.prototype.find` returns and the source mutates in place). -/
def updateFirstRecord (l : List ConsumptionRecord) (requestId : String)
    (f : ConsumptionRecord → ConsumptionRecord) : List ConsumptionRecord :=
  match l with
  | [] => []
  | r :: rs =>
    if r.requestId = requestId then f r :: rs
    else r :: updateFirstRecord rs requestId f

/-- `private handleAdjustmentFailureSync(requestId, additionalTokens)`
(src/index.ts lines 371-392). `strict` throws a `RateLimitError` with
reason `tpm_limit` and `timeUntilTokens(additionalTokens)`; `warn` only
logs; `compensate` adds the shortfall to the compensation debt. -/
def handleAdjustmentFailureSync (t : Throttle) (additionalTokens now : ℚ) :
    Except ThrottleError Throttle :=
  match t.adjustmentFailureStrategy with
  | .strict =>
    let (wait, _) := t.tpmBucket.timeUntilTokens additionalTokens now
    .error (.rateLimit .tpm_limit wait)
  | .warn => .ok t
  | .compensate => .ok { t with compensationDebt := t.compensationDebt + additionalTokens }

/-- Synchronous `adjustConsumption(requestId, actualTokens)`
(src/index.ts lines 309-337). -/
def adjustConsumption (t : Throttle) (requestId : String) (actualTokens now : ℚ) :
    Except ThrottleError Throttle := do
  if actualTokens < 0 then
    throw (.invalidArgument "Actual tokens cannot be negative")
  match t.consumptionHistory.find? (fun r => r.requestId = requestId) with
  | none => throw (.notFound requestId)
  | some record =>
    let difference := actualTokens - record.tokens
    let t ← do
      if 0 < difference then
        let (consumed, tb) ← t.tpmBucket.consume difference now
        let t := { t with tpmBucket := tb }
        if !consumed then
          t.handleAdjustmentFailureSync difference now
        else
          pure t
      else if difference < 0 then
        let tb ← t.tpmBucket.refund (-difference)
        pure { t with tpmBucket := tb }
      else
        pure t
    let updated := updateFirstRecord t.consumptionHistory requestId
      (fun r => { r with tokens := actualTokens, actualTokens := some actualTokens })
    return { t with consumptionHistory := updated }

/-- `history.slice(-w)` of `calculateEfficiency`: for `w > 0` the last
`min w length` records; JS `slice(-0)` is `slice(0)`, the whole array. -/
def sliceLast (l : List ConsumptionRecord) (w : ℕ) : List ConsumptionRecord :=
  if w = 0 then l else l.drop (l.length - w)

/-- Per-record accuracy term of the efficiency loop (src/index.ts lines
586-598): both values zero count 1, exactly one zero counts 0, otherwise
`min/max`. -/
def accuracyOf (estimated actual : ℚ) : ℚ :=
  if estimated = 0 ∧ actual = 0 then 1
  else if estimated = 0 ∨ actual = 0 then 0
  else min estimated actual / max estimated actual

/-- `private calculateEfficiency()` (src/index.ts lines 570-601).
`record.estimatedTokens !== undefined` always holds for records built by
this model's `consume`, so the reconciled filter reduces to
`actualTokens` being present. -/
def calculateEfficiency (t : Throttle) : ℚ :=
  let recentHistory := sliceLast t.consumptionHistory t.efficiencyWindowSize
  if recentHistory.length = 0 then 1
  else
    let recordsWithActual := recentHistory.filter (fun r => r.actualTokens.isSome)
    if recordsWithActual.length = 0 then 17 / 20
    else
      let totalAccuracy := recordsWithActual.foldl
        (fun acc r => acc + accuracyOf r.estimatedTokens (r.actualTokens.getD 0)) 0
      totalAccuracy / recordsWithActual.length

/-- The `efficiency` field of `getMetrics()` (src/index.ts lines
417-447): `getMetrics` runs `cleanupHistory()` first, then reports
`calculateEfficiency()`. -/
def getMetricsEfficiency (t : Throttle) (now : ℚ) : ℚ :=
  (t.cleanupHistory now).calculateEfficiency

/-- Synchronous `reset()` (src/index.ts lines 455-466). -/
def reset (t : Throttle) (now : ℚ) : Throttle :=
  { t with rpmBucket := t.rpmBucket.reset now, tpmBucket := t.tpmBucket.reset now,
           consumptionHistory := [], compensationDebt := 0 }

/-- State of the engine after both buckets have performed a lazy refill
at `now` (what every path through `canProcess` leaves behind). -/
def refillBoth (t : Throttle) (now : ℚ) : Throttle :=
  { t with rpmBucket := t.rpmBucket.refill now, tpmBucket := t.tpmBucket.refill now }

end Throttle

/-- A plain configuration (60 requests/min, 1000 tokens/min), as in the
spec's admission examples; everything else defaulted. -/
def cfgBasic : ThrottleConfig := { rpm := 60, tpm := 1000 }

/-- The same limits with the `compensate` adjustment-failure strategy. -/
def cfgCompensate : ThrottleConfig :=
  { rpm := 60, tpm := 1000, adjustmentFailureStrategy := some .compensate }

/-- The spec's worked refill example: capacity 100, refill 10/s,
currently at 50 tokens, last refilled at clock value 0. -/
def bucketExample : TokenBucket :=
  { capacity := 100, available := 50, refillRate := 10, lastRefill := 0 }

/-- A same-capacity bucket to restore the example snapshot into. -/
def bucketRestoreTarget : TokenBucket :=
  { capacity := 100, available := 30, refillRate := 10, lastRefill := 500 }

/-- A snapshot whose `available` exceeds its capacity (invalid). -/
def badSnapshot : TokenBucketState :=
  { available := 150, capacity := 100, lastRefill := 0 }

/-- A ledger record as produced by `consume("a", 100)` at clock 0. -/
def recA : ConsumptionRecord :=
  { timestamp := 0, tokens := 100, requestId := "a",
    estimatedTokens := 100, actualTokens := none, compensationDebt := 0 }

/-- The engine state reached from `mkThrottle cfgBasic 0` by
`consume("a", 100)` at clock 0 (used as a concrete reconciliation
scenario). -/
def throttleA : Throttle :=
  { rpmBucket := { capacity := 60, available := 59, refillRate := 1, lastRefill := 0 }
    tpmBucket := { capacity := 1000, available := 900, refillRate := 50/3, lastRefill := 0 }
    consumptionHistory := [recA]
    compensationDebt := 0
    historyRetentionMs := 60000
    maxHistoryRecords := 10000
    efficiencyWindowSize := 50
    adjustmentFailureStrategy := .warn }

/-- `recA` after reconciliation to an actual of 100. -/
def recC5 : ConsumptionRecord :=
  { timestamp := 0, tokens := 100, requestId := "a",
    estimatedTokens := 100, actualTokens := some 100, compensationDebt := 0 }

/-- `throttleA` after reconciling request "a" to its estimate (100):
only the record changes, gaining `actualTokens`. -/
def throttleC5 : Throttle :=
  { throttleA with consumptionHistory := [recC5] }

/-- State reached from `mkThrottle cfgCompensate 0` by
`consume("a", 900)` at clock 0. -/
def throttleC6a : Throttle :=
  { rpmBucket := { capacity := 60, available := 59, refillRate := 1, lastRefill := 0 }
    tpmBucket := { capacity := 1000, available := 100, refillRate := 50/3, lastRefill := 0 }
    consumptionHistory :=
      [{ timestamp := 0, tokens := 900, requestId := "a",
         estimatedTokens := 900, actualTokens := none, compensationDebt := 0 }]
    compensationDebt := 0
    historyRetentionMs := 60000
    maxHistoryRecords := 10000
    efficiencyWindowSize := 50
    adjustmentFailureStrategy := .compensate }

/-- State after `adjustConsumption("a", 1001)`: the 101-token shortfall
became compensation debt. -/
def throttleC6b : Throttle :=
  { throttleC6a with
    compensationDebt := 101
    consumptionHistory :=
      [{ timestamp := 0, tokens := 1001, requestId := "a",
         estimatedTokens := 900, actualTokens := some 1001, compensationDebt := 0 }] }

/-- State after the follow-up `consume("b", -3)`: the negative estimate
was accepted, `needed = -3 + 101 = 98` was debited, and a record with
`tokens = -3` was appended. -/
def throttleC6c : Throttle :=
  { throttleC6b with
    rpmBucket := { capacity := 60, available := 58, refillRate := 1, lastRefill := 0 }
    tpmBucket := { capacity := 1000, available := 2, refillRate := 50/3, lastRefill := 0 }
    compensationDebt := 0
    consumptionHistory := throttleC6b.consumptionHistory ++
      [{ timestamp := 0, tokens := -3, requestId := "b",
         estimatedTokens := -3, actualTokens := none, compensationDebt := 101 }] }

/-! ### Basic lemmas about the bucket primitive -/

namespace TokenBucket

@[simp]
theorem refill_capacity (b : TokenBucket) (now : ℚ) :
    (b.refill now).capacity = b.capacity := by
  by_cases h : (now - b.lastRefill) / 1000 ≤ 0 <;> simp [refill, h]

@[simp]
theorem refill_refillRate (b : TokenBucket) (now : ℚ) :
    (b.refill now).refillRate = b.refillRate := by
  by_cases h : (now - b.lastRefill) / 1000 ≤ 0 <;> simp [refill, h]

/-- Refilling is idempotent at a fixed clock value: the second refill
sees zero elapsed time (or an unchanged negative gap) and is a no-op. -/
@[simp]
theorem refill_idem (b : TokenBucket) (now : ℚ) :
    (b.refill now).refill now = b.refill now := by
  by_cases h : (now - b.lastRefill) / 1000 ≤ 0
  · simp [refill, h]
  · simp [refill, h]

/-- For a positive elapsed time the refill is exactly the source formula
`min(capacity, available + elapsedSeconds * refillRate)` with the fresh
timestamp. -/
theorem refill_of_pos (b : TokenBucket) (now : ℚ) (h : 0 < (now - b.lastRefill) / 1000) :
    b.refill now =
      { b with available := min b.capacity (b.available + (now - b.lastRefill) / 1000 * b.refillRate)
               lastRefill := now } := by
  simp [refill, not_le.mpr h]

theorem refill_of_nonpos (b : TokenBucket) (now : ℚ) (h : (now - b.lastRefill) / 1000 ≤ 0) :
    b.refill now = b := by
  simp [refill, h]

/-- Refill keeps `available` nonnegative. -/
theorem refill_nonneg (b : TokenBucket) (now : ℚ) (hcap : 0 ≤ b.capacity)
    (hrate : 0 ≤ b.refillRate) (h : 0 ≤ b.available) :
    0 ≤ (b.refill now).available := by
  by_cases hp : (now - b.lastRefill) / 1000 ≤ 0
  · simpa [refill_of_nonpos b now hp]
  · rw [refill_of_pos b now (not_le.mp hp)]
    have : 0 ≤ (now - b.lastRefill) / 1000 * b.refillRate :=
      mul_nonneg (le_of_lt (not_le.mp hp)) hrate
    simp only [le_min_iff]
    constructor
    · exact hcap
    · linarith

/-- Refill caps at capacity. -/
theorem refill_le_capacity (b : TokenBucket) (now : ℚ) (h : b.available ≤ b.capacity) :
    (b.refill now).available ≤ b.capacity := by
  by_cases hp : (now - b.lastRefill) / 1000 ≤ 0
  · simpa [refill_of_nonpos b now hp]
  · rw [refill_of_pos b now (not_le.mp hp)]
    exact min_le_left _ _

/-- Refill never decreases `available`. -/
theorem le_refill (b : TokenBucket) (now : ℚ) (hrate : 0 ≤ b.refillRate)
    (h : b.available ≤ b.capacity) :
    b.available ≤ (b.refill now).available := by
  by_cases hp : (now - b.lastRefill) / 1000 ≤ 0
  · simp [refill_of_nonpos b now hp]
  · rw [refill_of_pos b now (not_le.mp hp)]
    have : 0 ≤ (now - b.lastRefill) / 1000 * b.refillRate :=
      mul_nonneg (le_of_lt (not_le.mp hp)) hrate
    simp only [le_min_iff]
    constructor
    · exact h
    · linarith

/-- Refill is monotone non-decreasing in the clock value. -/
theorem refill_mono (b : TokenBucket) (now₁ now₂ : ℚ) (hrate : 0 ≤ b.refillRate)
    (h : b.available ≤ b.capacity) (hle : now₁ ≤ now₂) :
    (b.refill now₁).available ≤ (b.refill now₂).available := by
  by_cases h1 : (now₁ - b.lastRefill) / 1000 ≤ 0
  · rw [refill_of_nonpos b now₁ h1]
    exact le_refill b now₂ hrate h
  · have h2 : ¬ (now₂ - b.lastRefill) / 1000 ≤ 0 := by
      intro hc
      apply h1
      have : now₁ - b.lastRefill ≤ now₂ - b.lastRefill := by linarith
      calc (now₁ - b.lastRefill) / 1000 ≤ (now₂ - b.lastRefill) / 1000 := by
            apply div_le_div_of_nonneg_right this (by norm_num) |>.trans_eq rfl
        _ ≤ 0 := hc
    rw [refill_of_pos b now₁ (not_le.mp h1), refill_of_pos b now₂ (not_le.mp h2)]
    simp only
    apply min_le_min le_rfl
    have hdiv : (now₁ - b.lastRefill) / 1000 ≤ (now₂ - b.lastRefill) / 1000 := by
      apply div_le_div_of_nonneg_right (by linarith) (by norm_num) |>.trans_eq rfl
    nlinarith

/-- Successful debit: with `0 ≤ count` covered by the refilled balance,
`consume` debits exactly `count` (all-or-nothing, success case). -/
theorem consume_of_le (b : TokenBucket) (count now : ℚ) (hc : 0 ≤ count)
    (h : count ≤ (b.refill now).available) :
    b.consume count now =
      .ok (true, { b.refill now with available := (b.refill now).available - count }) := by
  simp [consume, not_lt.mpr hc, h]

/-- Failed debit: insufficient balance leaves the (refilled) bucket
unchanged (all-or-nothing, failure case). -/
theorem consume_of_lt (b : TokenBucket) (count now : ℚ) (hc : 0 ≤ count)
    (h : (b.refill now).available < count) :
    b.consume count now = .ok (false, b.refill now) := by
  simp [consume, not_lt.mpr hc, not_le.mpr h]

end TokenBucket

namespace TokenBucket

/-- The result of a successful `restoreState`. -/
theorem restoreState_of_valid (b : TokenBucket) (s : TokenBucketState)
    (h1 : ¬ (s.available < 0 ∨ s.capacity < s.available))
    (h2 : s.capacity = b.capacity) :
    b.restoreState s = .ok { b with available := s.available, lastRefill := s.lastRefill } := by
  rw [restoreState, if_neg h1, if_neg (not_not_intro h2)]

/-- A failed `restoreState` (invalid snapshot or capacity mismatch)
produces an `invalidState` error. -/
theorem restoreState_of_invalid (b : TokenBucket) (s : TokenBucketState)
    (h : s.available < 0 ∨ s.capacity < s.available ∨ s.capacity ≠ b.capacity) :
    ∃ msg, b.restoreState s = .error (.invalidState msg) := by
  rw [restoreState]
  by_cases h1 : s.available < 0 ∨ s.capacity < s.available
  · rw [if_pos h1]; exact ⟨_, rfl⟩
  · rw [if_neg h1]
    have h2 : s.capacity ≠ b.capacity := by
      rcases h with h | h | h
      · exact absurd (Or.inl h) h1
      · exact absurd (Or.inr h) h1
      · exact h
    rw [if_pos h2]; exact ⟨_, rfl⟩

/-- No operation ever changes the bucket's capacity. -/
theorem applyOp_capacity (b : TokenBucket) (op : BucketOp) :
    (b.applyOp op).capacity = b.capacity := by
  cases op with
  | refillAt now => simp [applyOp]
  | consumeAt count now =>
    by_cases hc : count < 0
    · simp [applyOp, consume, hc]
    · by_cases h : count ≤ (b.refill now).available <;>
        simp [applyOp, consume, hc, h]
  | refundAt count =>
    by_cases hc : count < 0 <;> simp [applyOp, refund, hc]
  | resetAt now => simp [applyOp, reset]
  | restoreAt s =>
    by_cases h1 : s.available < 0 ∨ s.capacity < s.available
    · simp [applyOp, restoreState, h1]
    · by_cases h2 : s.capacity = b.capacity
      · rw [applyOp, restoreState_of_valid b s h1 h2]
      · obtain ⟨msg, hmsg⟩ := restoreState_of_invalid b s (Or.inr (Or.inr h2))
        rw [applyOp, hmsg]

/-- No operation ever changes the bucket's refill rate. -/
theorem applyOp_refillRate (b : TokenBucket) (op : BucketOp) :
    (b.applyOp op).refillRate = b.refillRate := by
  cases op with
  | refillAt now => simp [applyOp]
  | consumeAt count now =>
    by_cases hc : count < 0
    · simp [applyOp, consume, hc]
    · by_cases h : count ≤ (b.refill now).available <;>
        simp [applyOp, consume, hc, h]
  | refundAt count =>
    by_cases hc : count < 0 <;> simp [applyOp, refund, hc]
  | resetAt now => simp [applyOp, reset]
  | restoreAt s =>
    by_cases h1 : s.available < 0 ∨ s.capacity < s.available
    · simp [applyOp, restoreState, h1]
    · by_cases h2 : s.capacity = b.capacity
      · rw [applyOp, restoreState_of_valid b s h1 h2]
      · obtain ⟨msg, hmsg⟩ := restoreState_of_invalid b s (Or.inr (Or.inr h2))
        rw [applyOp, hmsg]

/-- One operation preserves `0 ≤ available ≤ capacity` (for a bucket
with nonnegative capacity and refill rate). -/
theorem applyOp_bounds (b : TokenBucket) (op : BucketOp)
    (hcap : 0 ≤ b.capacity) (hrate : 0 ≤ b.refillRate)
    (h0 : 0 ≤ b.available) (h1 : b.available ≤ b.capacity) :
    0 ≤ (b.applyOp op).available ∧ (b.applyOp op).available ≤ (b.applyOp op).capacity := by
  rw [applyOp_capacity]
  cases op with
  | refillAt now =>
    exact ⟨refill_nonneg b now hcap hrate h0, refill_le_capacity b now h1⟩
  | consumeAt count now =>
    by_cases hc : count < 0
    · simp only [applyOp, consume, if_pos hc]
      exact ⟨h0, h1⟩
    · by_cases h : count ≤ (b.refill now).available
      · rw [applyOp, consume_of_le b count now (not_lt.mp hc) h]
        refine ⟨by simp; linarith [not_lt.mp hc], ?_⟩
        have := refill_le_capacity b now h1
        simp only
        linarith [not_lt.mp hc]
      · rw [applyOp, consume_of_lt b count now (not_lt.mp hc) (not_le.mp h)]
        exact ⟨refill_nonneg b now hcap hrate h0, refill_le_capacity b now h1⟩
  | refundAt count =>
    by_cases hc : count < 0
    · simp only [applyOp, refund, if_pos hc]
      exact ⟨h0, h1⟩
    · simp only [applyOp, refund, if_neg hc]
      refine ⟨le_min hcap (by linarith [not_lt.mp hc]), min_le_left _ _⟩
  | resetAt now =>
    refine ⟨?_, ?_⟩ <;> simp [applyOp, reset, hcap]
  | restoreAt s =>
    by_cases hr : s.available < 0 ∨ s.capacity < s.available
    · simp only [applyOp, restoreState, if_pos hr]
      exact ⟨h0, h1⟩
    · by_cases h2 : s.capacity = b.capacity
      · rw [applyOp, restoreState_of_valid b s hr h2]
        push_neg at hr
        exact ⟨hr.1, h2 ▸ hr.2⟩
      · obtain ⟨msg, hmsg⟩ := restoreState_of_invalid b s (Or.inr (Or.inr h2))
        rw [applyOp, hmsg]
        exact ⟨h0, h1⟩

/-- A sequence of operations preserves `0 ≤ available ≤ capacity`. -/
theorem applyOps_bounds (ops : List BucketOp) (b : TokenBucket)
    (hcap : 0 ≤ b.capacity) (hrate : 0 ≤ b.refillRate)
    (h0 : 0 ≤ b.available) (h1 : b.available ≤ b.capacity) :
    0 ≤ (b.applyOps ops).available ∧
      (b.applyOps ops).available ≤ (b.applyOps ops).capacity := by
  induction ops generalizing b with
  | nil => exact ⟨h0, by simpa [applyOps] using h1⟩
  | cons op rest ih =>
    have step := applyOp_bounds b op hcap hrate h0 h1
    have hc := applyOp_capacity b op
    have hrr := applyOp_refillRate b op
    exact ih (b.applyOp op) (hc ▸ hcap) (hrr ▸ hrate) step.1 (by
      have := step.2
      simpa [hc] using this)

/-- Characterization of a successful construction: the validated config
yields a bucket within bounds with positive capacity and rate. -/
theorem create_ok (capacity refillRate : ℚ) (initialTokens : Option ℚ) (now : ℚ)
    (b : TokenBucket)
    (h : create capacity refillRate initialTokens now = .ok b) :
    0 < b.capacity ∧ 0 < b.refillRate ∧ 0 ≤ b.available ∧ b.available ≤ b.capacity ∧
      b.capacity = capacity ∧ b.refillRate = refillRate := by
  unfold create at h
  by_cases h1 : capacity ≤ 0
  · simp [h1] at h
  by_cases h2 : refillRate ≤ 0
  · simp [h1, h2] at h
  cases initialTokens with
  | none =>
    simp only [if_neg h1, if_neg h2] at h
    norm_num at h
    cases h
    push_neg at h1 h2
    exact ⟨h1, h2, le_of_lt h1, le_rfl, rfl, rfl⟩
  | some i =>
    by_cases h3 : i < 0
    · simp [h1, h2, h3] at h
    by_cases h4 : capacity < i
    · simp [h1, h2, h3, h4] at h
    simp only [if_neg h1, if_neg h2, h3, h4] at h
    norm_num at h
    cases h
    push_neg at h1 h2 h3 h4
    exact ⟨h1, h2, h3, h4, rfl, rfl⟩

end TokenBucket

namespace Throttle

theorem canProcess_rpm_denied (t : Throttle) (est now : ℚ) (hest : 0 ≤ est)
    (hrpm : (t.rpmBucket.refill now).available < 1) :
    t.canProcess est now =
      .ok ({ allowed := false, reason := some .rpm_limit,
             availableIn := some (t.rpmBucket.timeUntilNextToken now).1,
             availableRpm := (t.rpmBucket.refill now).available,
             availableTpm := (t.tpmBucket.refill now).available },
           t.refillBoth now) := by
  have h0 : ¬ (1 : ℚ) < 0 := by norm_num
  simp [canProcess, TokenBucket.hasTokens, TokenBucket.timeUntilNextToken,
    TokenBucket.availableNow, refillBoth, h0, not_le.mpr hrpm, not_lt.mpr hest]

theorem canProcess_tpm_denied (t : Throttle) (est now : ℚ) (hest : 0 ≤ est)
    (hrpm : 1 ≤ (t.rpmBucket.refill now).available)
    (htpm : (t.tpmBucket.refill now).available < est) :
    t.canProcess est now =
      .ok ({ allowed := false, reason := some .tpm_limit,
             availableIn := some (t.tpmBucket.timeUntilTokens est now).1,
             availableRpm := (t.rpmBucket.refill now).available,
             availableTpm := (t.tpmBucket.refill now).available },
           t.refillBoth now) := by
  have h0 : ¬ (1 : ℚ) < 0 := by norm_num
  by_cases hz : est ≤ 0 <;>
    simp [canProcess, TokenBucket.hasTokens, TokenBucket.timeUntilTokens,
      TokenBucket.availableNow, refillBoth, h0, hz, hrpm, not_le.mpr htpm,
      not_lt.mpr hest]

theorem canProcess_allowed (t : Throttle) (est now : ℚ) (hest : 0 ≤ est)
    (hrpm : 1 ≤ (t.rpmBucket.refill now).available)
    (htpm : est ≤ (t.tpmBucket.refill now).available) :
    t.canProcess est now =
      .ok ({ allowed := true, reason := none, availableIn := none,
             availableRpm := (t.rpmBucket.refill now).available,
             availableTpm := (t.tpmBucket.refill now).available },
           t.refillBoth now) := by
  have h0 : ¬ (1 : ℚ) < 0 := by norm_num
  simp [canProcess, TokenBucket.hasTokens, TokenBucket.availableNow,
    refillBoth, h0, hrpm, htpm, not_lt.mpr hest]

@[simp]
theorem refillBoth_rpmBucket (t : Throttle) (now : ℚ) :
    (t.refillBoth now).rpmBucket = t.rpmBucket.refill now := rfl

@[simp]
theorem refillBoth_tpmBucket (t : Throttle) (now : ℚ) :
    (t.refillBoth now).tpmBucket = t.tpmBucket.refill now := rfl

@[simp]
theorem refillBoth_compensationDebt (t : Throttle) (now : ℚ) :
    (t.refillBoth now).compensationDebt = t.compensationDebt := rfl

@[simp]
theorem refillBoth_consumptionHistory (t : Throttle) (now : ℚ) :
    (t.refillBoth now).consumptionHistory = t.consumptionHistory := rfl

@[simp]
theorem cleanupHistory_rpmBucket (t : Throttle) (now : ℚ) :
    (t.cleanupHistory now).rpmBucket = t.rpmBucket := rfl

@[simp]
theorem cleanupHistory_tpmBucket (t : Throttle) (now : ℚ) :
    (t.cleanupHistory now).tpmBucket = t.tpmBucket := rfl

@[simp]
theorem cleanupHistory_compensationDebt (t : Throttle) (now : ℚ) :
    (t.cleanupHistory now).compensationDebt = t.compensationDebt := rfl

/-- On every `canProcess` path the state left behind is exactly the two
buckets lazily refilled at `now`; nothing else changes. -/
theorem canProcess_snd (t : Throttle) (est now : ℚ) (h : 0 ≤ est) :
    ∀ check t', t.canProcess est now = .ok (check, t') → t' = t.refillBoth now := by
  intro check t' hcp
  rcases lt_or_le (t.rpmBucket.refill now).available 1 with hrpm | hrpm
  · rw [canProcess_rpm_denied t est now h hrpm] at hcp
    exact (Prod.mk.injEq _ _ _ _ ▸ (Except.ok.injEq _ _ ▸ hcp)).2.symm ▸ rfl
  · rcases lt_or_le (t.tpmBucket.refill now).available est with htpm | htpm
    · rw [canProcess_tpm_denied t est now h hrpm htpm] at hcp
      exact (Prod.mk.injEq _ _ _ _ ▸ (Except.ok.injEq _ _ ▸ hcp)).2.symm ▸ rfl
    · rw [canProcess_allowed t est now h hrpm htpm] at hcp
      exact (Prod.mk.injEq _ _ _ _ ▸ (Except.ok.injEq _ _ ▸ hcp)).2.symm ▸ rfl

/-- The admission decision of `canProcess`: allowed iff the refilled RPM
bucket holds at least 1 token and the refilled TPM bucket covers the
estimate. -/
theorem canProcess_allowed_iff (t : Throttle) (est now : ℚ) (h : 0 ≤ est) :
    ∀ check t', t.canProcess est now = .ok (check, t') →
      (check.allowed = true ↔
        1 ≤ (t.rpmBucket.refill now).available ∧
          est ≤ (t.tpmBucket.refill now).available) := by
  intro check t' hcp
  rcases lt_or_le (t.rpmBucket.refill now).available 1 with hrpm | hrpm
  · rw [canProcess_rpm_denied t est now h hrpm] at hcp
    have := (Prod.mk.injEq _ _ _ _ ▸ (Except.ok.injEq _ _ ▸ hcp)).1
    rw [← this]
    simp only [Bool.false_eq_true, false_iff]
    intro hc
    exact absurd hc.1 (not_le.mpr hrpm)
  · rcases lt_or_le (t.tpmBucket.refill now).available est with htpm | htpm
    · rw [canProcess_tpm_denied t est now h hrpm htpm] at hcp
      have := (Prod.mk.injEq _ _ _ _ ▸ (Except.ok.injEq _ _ ▸ hcp)).1
      rw [← this]
      simp only [Bool.false_eq_true, false_iff]
      intro hc
      exact absurd hc.2 (not_le.mpr htpm)
    · rw [canProcess_allowed t est now h hrpm htpm] at hcp
      have := (Prod.mk.injEq _ _ _ _ ▸ (Except.ok.injEq _ _ ▸ hcp)).1
      rw [← this]
      simp only [true_iff]
      exact ⟨hrpm, htpm⟩

/-- Every record surviving `cleanupHistory` is younger than the
retention cutoff. -/
theorem cleanupHistory_fresh (t : Throttle) (now : ℚ) :
    ∀ r ∈ (t.cleanupHistory now).consumptionHistory,
      now - t.historyRetentionMs < r.timestamp := by
  intro r hr
  unfold cleanupHistory at hr
  simp only at hr
  have hmem : r ∈ t.consumptionHistory.filter
      (fun x => decide (now - t.historyRetentionMs < x.timestamp)) := by
    by_cases hlen : t.maxHistoryRecords <
        (t.consumptionHistory.filter
          (fun x => decide (now - t.historyRetentionMs < x.timestamp))).length
    · rw [if_pos hlen] at hr
      exact List.mem_of_mem_drop hr
    · rwa [if_neg hlen] at hr
  have := List.of_mem_filter hmem
  exact of_decide_eq_true this

/-- After `cleanupHistory` the ledger never exceeds `maxHistoryRecords`. -/
theorem cleanupHistory_length_le (t : Throttle) (now : ℚ) :
    (t.cleanupHistory now).consumptionHistory.length ≤ t.maxHistoryRecords := by
  unfold cleanupHistory
  simp only
  by_cases hlen : t.maxHistoryRecords <
      (t.consumptionHistory.filter
        (fun x => decide (now - t.historyRetentionMs < x.timestamp))).length
  · rw [if_pos hlen]
    rw [List.length_drop]
    omega
  · rw [if_neg hlen]
    omega

/-- `cleanupHistory` keeps a suffix (the newest entries) of the
retention-filtered ledger: the evicted excess is exactly the oldest
records. -/
theorem cleanupHistory_suffix (t : Throttle) (now : ℚ) :
    (t.cleanupHistory now).consumptionHistory <:+
      t.consumptionHistory.filter
        (fun x => decide (now - t.historyRetentionMs < x.timestamp)) := by
  unfold cleanupHistory
  simp only
  by_cases hlen : t.maxHistoryRecords <
      (t.consumptionHistory.filter
        (fun x => decide (now - t.historyRetentionMs < x.timestamp))).length
  · rw [if_pos hlen]
    exact List.drop_suffix _ _
  · rw [if_neg hlen]

/-- If the ledger ends in a record younger than the cutoff and at least
one record may be kept, cleanup preserves that final record. -/
theorem cleanupHistory_last (t : Throttle) (now : ℚ) (l : List ConsumptionRecord)
    (record : ConsumptionRecord)
    (hh : t.consumptionHistory = l ++ [record])
    (hfresh : now - t.historyRetentionMs < record.timestamp)
    (hmax : 1 ≤ t.maxHistoryRecords) :
    ∃ pre, (t.cleanupHistory now).consumptionHistory = pre ++ [record] := by
  unfold cleanupHistory
  simp only [hh, List.filter_append]
  have hp : List.filter (fun r => decide (now - t.historyRetentionMs < r.timestamp)) [record]
      = [record] := by
    simp [List.filter, hfresh]
  rw [hp]
  set fh := l.filter (fun r => decide (now - t.historyRetentionMs < r.timestamp)) with hfh
  by_cases hlen : t.maxHistoryRecords < (fh ++ [record]).length
  · rw [if_pos hlen]
    have hle : (fh ++ [record]).length - t.maxHistoryRecords ≤ fh.length := by
      simp only [List.length_append, List.length_singleton]
      omega
    rw [List.drop_append_of_le_length hle]
    exact ⟨_, rfl⟩
  · rw [if_neg hlen]
    exact ⟨fh, rfl⟩

end Throttle

/-- `Except.bind` on a success just applies the continuation. -/
theorem bindOk {ε α β : Type} (a : α) (f : α → Except ε β) :
    (Except.ok a : Except ε α) >>= f = f a := rfl

/-- `pure` in the `Except` monad is `Except.ok`. -/
theorem pureOk {ε α : Type} (a : α) : (pure a : Except ε α) = .ok a := rfl

/-- `Except.bind` on an error short-circuits. -/
theorem bindErr {ε α β : Type} (e : ε) (f : α → Except ε β) :
    (Except.error e : Except ε α) >>= f = .error e := rfl

/-- `throw` in the `Except` monad is `Except.error`. -/
theorem throwErr {ε α : Type} (e : ε) : (throw e : Except ε α) = .error e := rfl

namespace Throttle

/-- Reconciliation, case `delta > 0` with enough volume: the TPM bucket
is debited by the delta and the first matching record is updated. -/
theorem adjust_pos_ok (t : Throttle) (rid : String) (actual now : ℚ)
    (record : ConsumptionRecord) (hact : 0 ≤ actual)
    (hfind : t.consumptionHistory.find? (fun r => r.requestId = rid) = some record)
    (hdelta : 0 < actual - record.tokens)
    (hle : actual - record.tokens ≤ (t.tpmBucket.refill now).available) :
    t.adjustConsumption rid actual now =
      .ok { t with
        tpmBucket := { t.tpmBucket.refill now with
          available := (t.tpmBucket.refill now).available - (actual - record.tokens) }
        consumptionHistory := updateFirstRecord t.consumptionHistory rid
          (fun r => { r with tokens := actual, actualTokens := some actual }) } := by
  unfold adjustConsumption
  simp only [not_lt.mpr hact, Bool.false_eq_true, if_false, hfind,
    TokenBucket.consume_of_le t.tpmBucket _ now (le_of_lt hdelta) hle,
    if_pos hdelta, bindOk, pureOk, Bool.not_true, if_false]

/-- Reconciliation, case `delta > 0`, shortfall, strategy `compensate`:
the delta is added to the compensation debt, the TPM bucket keeps its
(refilled) balance, and the record is still updated. -/
theorem adjust_pos_shortfall_compensate (t : Throttle) (rid : String) (actual now : ℚ)
    (record : ConsumptionRecord) (hact : 0 ≤ actual)
    (hfind : t.consumptionHistory.find? (fun r => r.requestId = rid) = some record)
    (hdelta : 0 < actual - record.tokens)
    (hgt : (t.tpmBucket.refill now).available < actual - record.tokens)
    (hs : t.adjustmentFailureStrategy = .compensate) :
    t.adjustConsumption rid actual now =
      .ok { t with
        tpmBucket := t.tpmBucket.refill now
        compensationDebt := t.compensationDebt + (actual - record.tokens)
        consumptionHistory := updateFirstRecord t.consumptionHistory rid
          (fun r => { r with tokens := actual, actualTokens := some actual }) } := by
  unfold adjustConsumption
  simp only [not_lt.mpr hact, Bool.false_eq_true, if_false, hfind,
    TokenBucket.consume_of_lt t.tpmBucket _ now (le_of_lt hdelta) hgt,
    if_pos hdelta, bindOk, pureOk, Bool.not_false, if_true,
    handleAdjustmentFailureSync, hs]

/-- Reconciliation, case `delta > 0`, shortfall, strategy `warn`: the
shortfall is only logged; no debt is created, the TPM bucket keeps its
(refilled) balance, and the record is still updated. -/
theorem adjust_pos_shortfall_warn (t : Throttle) (rid : String) (actual now : ℚ)
    (record : ConsumptionRecord) (hact : 0 ≤ actual)
    (hfind : t.consumptionHistory.find? (fun r => r.requestId = rid) = some record)
    (hdelta : 0 < actual - record.tokens)
    (hgt : (t.tpmBucket.refill now).available < actual - record.tokens)
    (hs : t.adjustmentFailureStrategy = .warn) :
    t.adjustConsumption rid actual now =
      .ok { t with
        tpmBucket := t.tpmBucket.refill now
        consumptionHistory := updateFirstRecord t.consumptionHistory rid
          (fun r => { r with tokens := actual, actualTokens := some actual }) } := by
  unfold adjustConsumption
  simp only [not_lt.mpr hact, Bool.false_eq_true, if_false, hfind,
    TokenBucket.consume_of_lt t.tpmBucket _ now (le_of_lt hdelta) hgt,
    if_pos hdelta, bindOk, pureOk, Bool.not_false, if_true,
    handleAdjustmentFailureSync, hs]

/-- Reconciliation, case `delta > 0`, shortfall, strategy `strict`: the
whole call fails with a rate-limit error carrying `tpm_limit` and
`timeUntilTokens(delta)`; no state is produced (in the source the record
is left un-updated and nothing but lazy refills has happened). -/
theorem adjust_pos_shortfall_strict (t : Throttle) (rid : String) (actual now : ℚ)
    (record : ConsumptionRecord) (hact : 0 ≤ actual)
    (hfind : t.consumptionHistory.find? (fun r => r.requestId = rid) = some record)
    (hdelta : 0 < actual - record.tokens)
    (hgt : (t.tpmBucket.refill now).available < actual - record.tokens)
    (hs : t.adjustmentFailureStrategy = .strict) :
    t.adjustConsumption rid actual now =
      .error (.rateLimit .tpm_limit
        ((t.tpmBucket.refill now).timeUntilTokens (actual - record.tokens) now).1) := by
  unfold adjustConsumption
  simp only [not_lt.mpr hact, Bool.false_eq_true, if_false, hfind,
    TokenBucket.consume_of_lt t.tpmBucket _ now (le_of_lt hdelta) hgt,
    if_pos hdelta, bindOk, pureOk, Bool.not_false, if_true,
    handleAdjustmentFailureSync, hs]
  rfl

/-- Reconciliation, case `delta < 0`: the engine refunds `-delta` to the
TPM bucket (capped at capacity, no refill) and updates the record. -/
theorem adjust_neg (t : Throttle) (rid : String) (actual now : ℚ)
    (record : ConsumptionRecord) (hact : 0 ≤ actual)
    (hfind : t.consumptionHistory.find? (fun r => r.requestId = rid) = some record)
    (hdelta : actual - record.tokens < 0) :
    t.adjustConsumption rid actual now =
      .ok { t with
        tpmBucket := { t.tpmBucket with
          available := min t.tpmBucket.capacity
            (t.tpmBucket.available + -(actual - record.tokens)) }
        consumptionHistory := updateFirstRecord t.consumptionHistory rid
          (fun r => { r with tokens := actual, actualTokens := some actual }) } := by
  have hrefund : t.tpmBucket.refund (-(actual - record.tokens)) =
      .ok { t.tpmBucket with
        available := min t.tpmBucket.capacity
          (t.tpmBucket.available + -(actual - record.tokens)) } := by
    rw [TokenBucket.refund, if_neg (by linarith)]
  unfold adjustConsumption
  simp only [not_lt.mpr hact, Bool.false_eq_true, if_false, hfind,
    if_neg (asymm hdelta), if_pos hdelta, hrefund, bindOk, pureOk]

/-- Reconciliation, case `delta = 0`: no bucket is touched at all; only
the record is updated. -/
theorem adjust_zero (t : Throttle) (rid : String) (actual now : ℚ)
    (record : ConsumptionRecord) (hact : 0 ≤ actual)
    (hfind : t.consumptionHistory.find? (fun r => r.requestId = rid) = some record)
    (hdelta : actual - record.tokens = 0) :
    t.adjustConsumption rid actual now =
      .ok { t with
        consumptionHistory := updateFirstRecord t.consumptionHistory rid
          (fun r => { r with tokens := actual, actualTokens := some actual }) } := by
  unfold adjustConsumption
  simp only [not_lt.mpr hact, Bool.false_eq_true, if_false, hfind, hdelta,
    lt_irrefl, if_false, bindOk, pureOk]

@[simp]
theorem cleanupHistory_historyRetentionMs (t : Throttle) (now : ℚ) :
    (t.cleanupHistory now).historyRetentionMs = t.historyRetentionMs := rfl

@[simp]
theorem cleanupHistory_maxHistoryRecords (t : Throttle) (now : ℚ) :
    (t.cleanupHistory now).maxHistoryRecords = t.maxHistoryRecords := rfl

@[simp]
theorem cleanupHistory_efficiencyWindowSize (t : Throttle) (now : ℚ) :
    (t.cleanupHistory now).efficiencyWindowSize = t.efficiencyWindowSize := rfl

/-- When every record is inside the retention window and the ledger is
within the size bound, `cleanupHistory` removes nothing. -/
theorem cleanupHistory_id (t : Throttle) (now : ℚ)
    (hfresh : ∀ r ∈ t.consumptionHistory, now - t.historyRetentionMs < r.timestamp)
    (hlen : t.consumptionHistory.length ≤ t.maxHistoryRecords) :
    (t.cleanupHistory now).consumptionHistory = t.consumptionHistory := by
  unfold cleanupHistory
  simp only
  have hfilter : t.consumptionHistory.filter
      (fun r => decide (now - t.historyRetentionMs < r.timestamp)) =
      t.consumptionHistory :=
    List.filter_eq_self.mpr (fun a ha => decide_eq_true (hfresh a ha))
  rw [hfilter, if_neg (not_lt.mpr hlen)]

/-- `updateFirstRecord` on a list whose first match is `record` touches
only that record. -/
theorem updateFirstRecord_append (pre : List ConsumptionRecord)
    (record : ConsumptionRecord) (post : List ConsumptionRecord) (rid : String)
    (f : ConsumptionRecord → ConsumptionRecord)
    (hpre : ∀ x ∈ pre, x.requestId ≠ rid) (hr : record.requestId = rid) :
    updateFirstRecord (pre ++ record :: post) rid f = pre ++ f record :: post := by
  induction pre with
  | nil =>
    simp only [List.nil_append, updateFirstRecord, if_pos hr]
  | cons p ps ih =>
    have hp : p.requestId ≠ rid := hpre p (by simp)
    simp only [List.cons_append, updateFirstRecord, if_neg hp]
    exact congrArg (List.cons p) (ih (fun x hx => hpre x (by simp [hx])))

/-- Any successful `adjustConsumption` rewrites the ledger exactly by
updating the first record with the given id (everything else is kept,
in order). -/
theorem adjust_ok_shape (t : Throttle) (rid : String) (actual now : ℚ)
    (t₂ : Throttle) (h : t.adjustConsumption rid actual now = .ok t₂) :
    t₂.consumptionHistory = updateFirstRecord t.consumptionHistory rid
      (fun r => { r with tokens := actual, actualTokens := some actual }) := by
  by_cases hact : actual < 0
  · unfold adjustConsumption at h
    rw [if_pos hact] at h
    exact Except.noConfusion h
  rcases hfind : t.consumptionHistory.find? (fun r => r.requestId = rid) with _ | record
  · unfold adjustConsumption at h
    rw [if_neg hact] at h
    simp only [hfind] at h
    exact Except.noConfusion h
  · rcases lt_trichotomy (actual - record.tokens) 0 with hd | hd | hd
    · rw [adjust_neg t rid actual now record (not_lt.mp hact) hfind hd] at h
      cases h
      rfl
    · rw [adjust_zero t rid actual now record (not_lt.mp hact) hfind hd] at h
      cases h
      rfl
    · rcases le_or_lt (actual - record.tokens) (t.tpmBucket.refill now).available
        with hle | hgt
      · rw [adjust_pos_ok t rid actual now record (not_lt.mp hact) hfind hd hle] at h
        cases h
        rfl
      · rcases hs : t.adjustmentFailureStrategy with _ | _ | _
        · rw [adjust_pos_shortfall_strict t rid actual now record (not_lt.mp hact)
            hfind hd hgt hs] at h
          cases h
        · rw [adjust_pos_shortfall_warn t rid actual now record (not_lt.mp hact)
            hfind hd hgt hs] at h
          cases h
          rfl
        · rw [adjust_pos_shortfall_compensate t rid actual now record (not_lt.mp hact)
            hfind hd hgt hs] at h
          cases h
          rfl

/-- Success-path equation for `consume`: when admission passes, the
final state is exactly "debit 1 RPM, debit `needed` TPM, clear the debt,
append the record, trim". -/
theorem consume_allowed_eq (t : Throttle) (rid : String) (est now : ℚ)
    (hid : jsIsBlank rid = false) (hneed : 0 ≤ est + t.compensationDebt)
    (hrpm : 1 ≤ (t.rpmBucket.refill now).available)
    (htpm : est + t.compensationDebt ≤ (t.tpmBucket.refill now).available) :
    t.consume rid est now = .ok (true, Throttle.cleanupHistory
      { t with
        rpmBucket := { t.rpmBucket.refill now with
          available := (t.rpmBucket.refill now).available - 1 }
        tpmBucket := { t.tpmBucket.refill now with
          available := (t.tpmBucket.refill now).available - (est + t.compensationDebt) }
        compensationDebt := 0
        consumptionHistory := t.consumptionHistory ++
          [{ timestamp := now, tokens := est, requestId := rid,
             estimatedTokens := est, actualTokens := none,
             compensationDebt := t.compensationDebt }] } now) := by
  have hcp := canProcess_allowed t (est + t.compensationDebt) now hneed hrpm htpm
  have hrb : (t.rpmBucket.refill now).consume 1 now =
      .ok (true, { t.rpmBucket.refill now with
        available := (t.rpmBucket.refill now).available - 1 }) := by
    have h1 : (1 : ℚ) ≤ ((t.rpmBucket.refill now).refill now).available := by
      rwa [TokenBucket.refill_idem]
    have := TokenBucket.consume_of_le (t.rpmBucket.refill now) 1 now (by norm_num) h1
    rwa [TokenBucket.refill_idem] at this
  have htb : (t.tpmBucket.refill now).consume (est + t.compensationDebt) now =
      .ok (true, { t.tpmBucket.refill now with
        available := (t.tpmBucket.refill now).available - (est + t.compensationDebt) }) := by
    have h1 : est + t.compensationDebt ≤ ((t.tpmBucket.refill now).refill now).available := by
      rwa [TokenBucket.refill_idem]
    have := TokenBucket.consume_of_le (t.tpmBucket.refill now) _ now hneed h1
    rwa [TokenBucket.refill_idem] at this
  unfold consume
  simp only [hid, Bool.false_eq_true, if_false, hcp, bindOk, Bool.not_true,
    refillBoth_rpmBucket, refillBoth_tpmBucket, hrb, htb,
    refillBoth_compensationDebt, refillBoth_consumptionHistory, pureOk]
  rfl

end Throttle

/-! ### Claims -/

/-- C1: for a non-blank `requestId` and a nonnegative estimate (with the
engine's nonnegative compensation debt), `consume` runs the admission
check against `needed = estimate + compensationDebt`; if denied it
returns `false` with the ledger and the (uncleared) debt untouched and
the buckets changed only by their lazy refill; if allowed it debits 1
from the RPM bucket and `needed` from the TPM bucket, zeroes the debt,
and appends a ledger record whose `tokens` and `estimatedTokens` equal
the original estimate and whose `compensationDebt` equals the debt just
paid. -/
theorem C1_consume_protocol (t : Throttle) (rid : String) (est now : ℚ)
    (hid : jsIsBlank rid = false) (hest : 0 ≤ est) (hdebt : 0 ≤ t.compensationDebt)
    (hret : 0 < t.historyRetentionMs) (hmax : 1 ≤ t.maxHistoryRecords) :
    ∀ check t', t.canProcess (est + t.compensationDebt) now = .ok (check, t') →
      (check.allowed = false →
        t.consume rid est now = .ok (false, t') ∧
        t'.compensationDebt = t.compensationDebt ∧
        t'.consumptionHistory = t.consumptionHistory ∧
        t'.rpmBucket = t.rpmBucket.refill now ∧
        t'.tpmBucket = t.tpmBucket.refill now) ∧
      (check.allowed = true →
        ∃ t₂, t.consume rid est now = .ok (true, t₂) ∧
          t₂.rpmBucket.available = (t.rpmBucket.refill now).available - 1 ∧
          t₂.tpmBucket.available =
            (t.tpmBucket.refill now).available - (est + t.compensationDebt) ∧
          t₂.compensationDebt = 0 ∧
          ∃ pre, t₂.consumptionHistory = pre ++
            [{ timestamp := now, tokens := est, requestId := rid,
               estimatedTokens := est, actualTokens := none,
               compensationDebt := t.compensationDebt }]) := by
  intro check t' hcp
  have hneed : 0 ≤ est + t.compensationDebt := by linarith
  have ht' := Throttle.canProcess_snd t _ now hneed check t' hcp
  subst ht'
  constructor
  · intro hfalse
    refine ⟨?_, rfl, rfl, rfl, rfl⟩
    unfold Throttle.consume
    simp only [hid, Bool.false_eq_true, if_false, hcp, bindOk, hfalse,
      Bool.not_false, if_true]
    rfl
  · intro htrue
    obtain ⟨hrpm, htpm⟩ :=
      (Throttle.canProcess_allowed_iff t _ now hneed check _ hcp).mp htrue
    have hrb : (t.rpmBucket.refill now).consume 1 now =
        .ok (true, { t.rpmBucket.refill now with
          available := (t.rpmBucket.refill now).available - 1 }) := by
      have h1 : (1 : ℚ) ≤ ((t.rpmBucket.refill now).refill now).available := by
        rwa [TokenBucket.refill_idem]
      have := TokenBucket.consume_of_le (t.rpmBucket.refill now) 1 now (by norm_num) h1
      rwa [TokenBucket.refill_idem] at this
    have htb : (t.tpmBucket.refill now).consume (est + t.compensationDebt) now =
        .ok (true, { t.tpmBucket.refill now with
          available := (t.tpmBucket.refill now).available - (est + t.compensationDebt) }) := by
      have h1 : est + t.compensationDebt ≤ ((t.tpmBucket.refill now).refill now).available := by
        rwa [TokenBucket.refill_idem]
      have := TokenBucket.consume_of_le (t.tpmBucket.refill now) _ now hneed h1
      rwa [TokenBucket.refill_idem] at this
    refine ⟨Throttle.cleanupHistory
      { t.refillBoth now with
        rpmBucket := { t.rpmBucket.refill now with
          available := (t.rpmBucket.refill now).available - 1 }
        tpmBucket := { t.tpmBucket.refill now with
          available := (t.tpmBucket.refill now).available - (est + t.compensationDebt) }
        compensationDebt := 0
        consumptionHistory := (t.refillBoth now).consumptionHistory ++
          [{ timestamp := now, tokens := est, requestId := rid,
             estimatedTokens := est, actualTokens := none,
             compensationDebt := t.compensationDebt }] } now, ?_, ?_, ?_, ?_, ?_⟩
    · unfold Throttle.consume
      simp only [hid, Bool.false_eq_true, if_false, hcp, bindOk, htrue,
        Bool.not_true, Bool.false_eq_true, if_false,
        Throttle.refillBoth_rpmBucket, Throttle.refillBoth_tpmBucket, hrb, htb,
        Throttle.refillBoth_compensationDebt, Throttle.refillBoth_consumptionHistory,
        pureOk]
    · simp
    · simp
    · simp
    · exact Throttle.cleanupHistory_last _ now t.consumptionHistory _ rfl
        (by simpa using hret) hmax

/-- Witness for C1: a fresh 60 rpm / 1000 tpm engine, request id
"req-1", estimate 5, at clock 0 satisfies every hypothesis. -/
theorem C1_consume_protocol_witness :
    jsIsBlank "req-1" = false ∧ (0 : ℚ) ≤ 5 ∧
    0 ≤ (mkThrottle cfgBasic 0).compensationDebt ∧
    0 < (mkThrottle cfgBasic 0).historyRetentionMs ∧
    1 ≤ (mkThrottle cfgBasic 0).maxHistoryRecords ∧
    (∀ check t',
      (mkThrottle cfgBasic 0).canProcess (5 + (mkThrottle cfgBasic 0).compensationDebt) 0 =
        .ok (check, t') →
      (check.allowed = false →
        (mkThrottle cfgBasic 0).consume "req-1" 5 0 = .ok (false, t') ∧
        t'.compensationDebt = (mkThrottle cfgBasic 0).compensationDebt ∧
        t'.consumptionHistory = (mkThrottle cfgBasic 0).consumptionHistory ∧
        t'.rpmBucket = (mkThrottle cfgBasic 0).rpmBucket.refill 0 ∧
        t'.tpmBucket = (mkThrottle cfgBasic 0).tpmBucket.refill 0) ∧
      (check.allowed = true →
        ∃ t₂, (mkThrottle cfgBasic 0).consume "req-1" 5 0 = .ok (true, t₂) ∧
          t₂.rpmBucket.available = ((mkThrottle cfgBasic 0).rpmBucket.refill 0).available - 1 ∧
          t₂.tpmBucket.available =
            ((mkThrottle cfgBasic 0).tpmBucket.refill 0).available -
              (5 + (mkThrottle cfgBasic 0).compensationDebt) ∧
          t₂.compensationDebt = 0 ∧
          ∃ pre, t₂.consumptionHistory = pre ++
            [{ timestamp := 0, tokens := 5, requestId := "req-1",
               estimatedTokens := 5, actualTokens := none,
               compensationDebt := (mkThrottle cfgBasic 0).compensationDebt }])) :=
  ⟨by decide, by norm_num, by norm_num [mkThrottle],
   by norm_num [mkThrottle, jsOrQ, cfgBasic], by norm_num [mkThrottle, jsOrNat, cfgBasic],
   C1_consume_protocol (mkThrottle cfgBasic 0) "req-1" 5 0 (by decide) (by norm_num)
     (by norm_num [mkThrottle]) (by norm_num [mkThrottle, jsOrQ, cfgBasic])
     (by norm_num [mkThrottle, jsOrNat, cfgBasic])⟩

/-- C2: `adjustConsumption(requestId, actual)` with `actual ≥ 0` on a
ledger containing `requestId`, with `delta = actual − record.tokens`:
`delta > 0` debits `delta` more from the TPM bucket when covered; on a
shortfall, `compensate` adds `delta` to the debt and proceeds while
`warn` merely proceeds; `delta < 0` refunds `−delta` (capped at
capacity); `delta = 0` touches no bucket; and in every non-`strict`
case the first matching record gets `tokens = actualTokens = actual`. -/
theorem C2_adjust_reconciliation (t : Throttle) (rid : String) (actual now : ℚ)
    (record : ConsumptionRecord) (hact : 0 ≤ actual)
    (hfind : t.consumptionHistory.find? (fun r => r.requestId = rid) = some record) :
    (0 < actual - record.tokens →
      actual - record.tokens ≤ (t.tpmBucket.refill now).available →
      t.adjustConsumption rid actual now =
        .ok { t with
          tpmBucket := { t.tpmBucket.refill now with
            available := (t.tpmBucket.refill now).available - (actual - record.tokens) }
          consumptionHistory := Throttle.updateFirstRecord t.consumptionHistory rid
            (fun r => { r with tokens := actual, actualTokens := some actual }) }) ∧
    (0 < actual - record.tokens →
      (t.tpmBucket.refill now).available < actual - record.tokens →
      t.adjustmentFailureStrategy = .compensate →
      t.adjustConsumption rid actual now =
        .ok { t with
          tpmBucket := t.tpmBucket.refill now
          compensationDebt := t.compensationDebt + (actual - record.tokens)
          consumptionHistory := Throttle.updateFirstRecord t.consumptionHistory rid
            (fun r => { r with tokens := actual, actualTokens := some actual }) }) ∧
    (0 < actual - record.tokens →
      (t.tpmBucket.refill now).available < actual - record.tokens →
      t.adjustmentFailureStrategy = .warn →
      t.adjustConsumption rid actual now =
        .ok { t with
          tpmBucket := t.tpmBucket.refill now
          consumptionHistory := Throttle.updateFirstRecord t.consumptionHistory rid
            (fun r => { r with tokens := actual, actualTokens := some actual }) }) ∧
    (actual - record.tokens < 0 →
      t.adjustConsumption rid actual now =
        .ok { t with
          tpmBucket := { t.tpmBucket with
            available := min t.tpmBucket.capacity
              (t.tpmBucket.available + -(actual - record.tokens)) }
          consumptionHistory := Throttle.updateFirstRecord t.consumptionHistory rid
            (fun r => { r with tokens := actual, actualTokens := some actual }) }) ∧
    (actual - record.tokens = 0 →
      t.adjustConsumption rid actual now =
        .ok { t with
          consumptionHistory := Throttle.updateFirstRecord t.consumptionHistory rid
            (fun r => { r with tokens := actual, actualTokens := some actual }) }) :=
  ⟨fun h1 h2 => Throttle.adjust_pos_ok t rid actual now record hact hfind h1 h2,
   fun h1 h2 h3 => Throttle.adjust_pos_shortfall_compensate t rid actual now record hact hfind h1 h2 h3,
   fun h1 h2 h3 => Throttle.adjust_pos_shortfall_warn t rid actual now record hact hfind h1 h2 h3,
   fun h1 => Throttle.adjust_neg t rid actual now record hact hfind h1,
   fun h1 => Throttle.adjust_zero t rid actual now record hact hfind h1⟩

/-- Witness for C2: the state after `consume("a", 100)` and a
reconciliation to 300 tokens satisfy the hypotheses. -/
theorem C2_adjust_reconciliation_witness :
    (0 : ℚ) ≤ 300 ∧
    throttleA.consumptionHistory.find? (fun r => r.requestId = "a") = some recA ∧
    (0 < (300 : ℚ) - recA.tokens →
      (300 : ℚ) - recA.tokens ≤ (throttleA.tpmBucket.refill 0).available →
      throttleA.adjustConsumption "a" 300 0 =
        .ok { throttleA with
          tpmBucket := { throttleA.tpmBucket.refill 0 with
            available := (throttleA.tpmBucket.refill 0).available - (300 - recA.tokens) }
          consumptionHistory := Throttle.updateFirstRecord throttleA.consumptionHistory "a"
            (fun r => { r with tokens := 300, actualTokens := some 300 }) }) :=
  ⟨by norm_num, by simp [throttleA, recA],
   (C2_adjust_reconciliation throttleA "a" 300 0 recA (by norm_num)
     (by simp [throttleA, recA])).1⟩

/-- C6 (amended): the failing operations and their errors. A blank
request id fails `consume` with `InvalidArgument` before any mutation;
`consume` rejects a negative amount only through the admission check on
`estimate + compensationDebt` (so the guard fires exactly when that sum
is negative — see the counterexample for a negative estimate that is
accepted); `adjustConsumption` raises `InvalidArgument` on a negative
`actual` and `NotFound` on an unknown id, both before any mutation; and
a `strict`-strategy shortfall fails with a rate-limit error carrying
reason `tpm_limit` and `timeUntilTokens(delta)`, leaving the record, the
debt and the buckets (up to lazy refill) unchanged. -/
theorem C6_error_paths (t : Throttle) (rid : String) (est actual now : ℚ) :
    (jsIsBlank rid = true →
      t.consume rid est now = .error (.invalidArgument "Request ID cannot be empty")) ∧
    (jsIsBlank rid = false → est + t.compensationDebt < 0 →
      t.consume rid est now =
        .error (.invalidArgument "Estimated tokens cannot be negative")) ∧
    (actual < 0 →
      t.adjustConsumption rid actual now =
        .error (.invalidArgument "Actual tokens cannot be negative")) ∧
    (0 ≤ actual → t.consumptionHistory.find? (fun r => r.requestId = rid) = none →
      t.adjustConsumption rid actual now = .error (.notFound rid)) ∧
    (∀ record, 0 ≤ actual →
      t.consumptionHistory.find? (fun r => r.requestId = rid) = some record →
      t.adjustmentFailureStrategy = .strict →
      0 < actual - record.tokens →
      (t.tpmBucket.refill now).available < actual - record.tokens →
      t.adjustConsumption rid actual now =
        .error (.rateLimit .tpm_limit
          ((t.tpmBucket.refill now).timeUntilTokens (actual - record.tokens) now).1)) := by
  refine ⟨?_, ?_, ?_, ?_, ?_⟩
  · intro hb
    unfold Throttle.consume
    simp only [hb, if_true]
    rfl
  · intro hb hneg
    unfold Throttle.consume Throttle.canProcess
    simp [hb, hneg, bindErr]
  · intro hneg
    unfold Throttle.adjustConsumption
    simp only [hneg, if_true]
    rfl
  · intro hpos hnone
    unfold Throttle.adjustConsumption
    simp [not_lt.mpr hpos, hnone, throwErr]
  · intro record hpos hfind hs hdelta hgt
    exact Throttle.adjust_pos_shortfall_strict t rid actual now record hpos hfind hdelta hgt hs

/-- Witness for C6 (amended): a blank id and an unknown id, concretely. -/
theorem C6_error_paths_witness :
    jsIsBlank "" = true ∧
    (mkThrottle cfgBasic 0).consume "" 5 0 =
      .error (.invalidArgument "Request ID cannot be empty") ∧
    (0 : ℚ) ≤ 5 ∧
    (mkThrottle cfgBasic 0).consumptionHistory.find? (fun r => r.requestId = "x") = none ∧
    (mkThrottle cfgBasic 0).adjustConsumption "x" 5 0 = .error (.notFound "x") :=
  ⟨by decide,
   (C6_error_paths (mkThrottle cfgBasic 0) "" 5 5 0).1 (by decide),
   by norm_num,
   by simp [mkThrottle, cfgBasic],
   (C6_error_paths (mkThrottle cfgBasic 0) "x" 5 5 0).2.2.2.1 (by norm_num)
     (by simp [mkThrottle, cfgBasic])⟩

/-- Counterexample for C6: with the `compensate` strategy, a
reconciliation shortfall leaves a positive compensation debt; a
subsequent `consume` with the *negative* token count `-3` does not raise
`InvalidArgument` — it is admitted (`needed = -3 + 101 = 98 ≥ 0`),
mutates both buckets, and appends a ledger record with `tokens = -3`. -/
theorem C6_counterexample :
    (mkThrottle cfgCompensate 0).consume "a" 900 0 = .ok (true, throttleC6a) ∧
    throttleC6a.adjustConsumption "a" 1001 0 = .ok throttleC6b ∧
    throttleC6b.compensationDebt = 101 ∧
    throttleC6b.consume "b" (-3) 0 = .ok (true, throttleC6c) := by
  refine ⟨?_, ?_, by norm_num [throttleC6b, throttleC6a], ?_⟩
  · rw [Throttle.consume_allowed_eq (mkThrottle cfgCompensate 0) "a" 900 0 (by decide)
      (by norm_num [mkThrottle, cfgCompensate])
      (by norm_num [mkThrottle, cfgCompensate, jsOrQ, TokenBucket.refill])
      (by norm_num [mkThrottle, cfgCompensate, jsOrQ, TokenBucket.refill])]
    norm_num [mkThrottle, cfgCompensate, jsOrQ, jsOrNat, TokenBucket.refill,
      Throttle.cleanupHistory, throttleC6a, List.filter]
  · rw [Throttle.adjust_pos_shortfall_compensate throttleC6a "a" 1001 0
      { timestamp := 0, tokens := 900, requestId := "a",
        estimatedTokens := 900, actualTokens := none, compensationDebt := 0 }
      (by norm_num) (by simp [throttleC6a]) (by norm_num)
      (by norm_num [throttleC6a, TokenBucket.refill]) (by simp [throttleC6a])]
    norm_num [throttleC6a, throttleC6b, TokenBucket.refill, Throttle.updateFirstRecord]
  · rw [Throttle.consume_allowed_eq throttleC6b "b" (-3) 0 (by decide)
      (by norm_num [throttleC6b, throttleC6a])
      (by norm_num [throttleC6b, throttleC6a, TokenBucket.refill])
      (by norm_num [throttleC6b, throttleC6a, TokenBucket.refill])]
    norm_num [throttleC6a, throttleC6b, throttleC6c, TokenBucket.refill,
      Throttle.cleanupHistory, List.filter]

/-- C3: `canProcess(estimate)` with `estimate ≥ 0` evaluates the rate
dimension strictly before the volume dimension: an RPM shortage yields
`rpm_limit` with the RPM bucket's time-until-one-token regardless of the
TPM bucket's state; otherwise a TPM shortage yields `tpm_limit` with
`timeUntilTokens(estimate)`; otherwise the check is allowed — and every
branch reports both buckets' current (lazily refilled) availability. -/
theorem C3_canProcess_order (t : Throttle) (est now : ℚ) (hest : 0 ≤ est) :
    ∃ r, t.canProcess est now = .ok (r, t.refillBoth now) ∧
      r.availableRpm = (t.rpmBucket.refill now).available ∧
      r.availableTpm = (t.tpmBucket.refill now).available ∧
      ((t.rpmBucket.refill now).available < 1 →
        r.allowed = false ∧ r.reason = some .rpm_limit ∧
        r.availableIn = some (t.rpmBucket.timeUntilNextToken now).1) ∧
      (1 ≤ (t.rpmBucket.refill now).available →
        (t.tpmBucket.refill now).available < est →
        r.allowed = false ∧ r.reason = some .tpm_limit ∧
        r.availableIn = some (t.tpmBucket.timeUntilTokens est now).1) ∧
      (1 ≤ (t.rpmBucket.refill now).available →
        est ≤ (t.tpmBucket.refill now).available →
        r.allowed = true ∧ r.reason = none) := by
  rcases lt_or_le (t.rpmBucket.refill now).available 1 with hrpm | hrpm
  · refine ⟨_, Throttle.canProcess_rpm_denied t est now hest hrpm, rfl, rfl,
      fun _ => ⟨rfl, rfl, rfl⟩, fun h _ => absurd h (not_le.mpr hrpm),
      fun h _ => absurd h (not_le.mpr hrpm)⟩
  · rcases lt_or_le (t.tpmBucket.refill now).available est with htpm | htpm
    · refine ⟨_, Throttle.canProcess_tpm_denied t est now hest hrpm htpm, rfl, rfl,
        fun h => absurd hrpm (not_le.mpr h), fun _ _ => ⟨rfl, rfl, rfl⟩,
        fun _ h => absurd h (not_le.mpr htpm)⟩
    · refine ⟨_, Throttle.canProcess_allowed t est now hest hrpm htpm, rfl, rfl,
        fun h => absurd hrpm (not_le.mpr h),
        fun _ h => absurd htpm (not_le.mpr h), fun _ _ => ⟨rfl, rfl⟩⟩

/-- Witness for C3, echoing the spec's tie-break example: limits 60 rpm
and 1000 tpm, `canProcess(1500)` at clock 0. -/
theorem C3_canProcess_order_witness :
    (0 : ℚ) ≤ 1500 ∧
    (∃ r, (mkThrottle cfgBasic 0).canProcess 1500 0 =
        .ok (r, (mkThrottle cfgBasic 0).refillBoth 0) ∧
      r.availableRpm = ((mkThrottle cfgBasic 0).rpmBucket.refill 0).available ∧
      r.availableTpm = ((mkThrottle cfgBasic 0).tpmBucket.refill 0).available ∧
      (((mkThrottle cfgBasic 0).rpmBucket.refill 0).available < 1 →
        r.allowed = false ∧ r.reason = some .rpm_limit ∧
        r.availableIn = some ((mkThrottle cfgBasic 0).rpmBucket.timeUntilNextToken 0).1) ∧
      (1 ≤ ((mkThrottle cfgBasic 0).rpmBucket.refill 0).available →
        ((mkThrottle cfgBasic 0).tpmBucket.refill 0).available < 1500 →
        r.allowed = false ∧ r.reason = some .tpm_limit ∧
        r.availableIn = some ((mkThrottle cfgBasic 0).tpmBucket.timeUntilTokens 1500 0).1) ∧
      (1 ≤ ((mkThrottle cfgBasic 0).rpmBucket.refill 0).available →
        1500 ≤ ((mkThrottle cfgBasic 0).tpmBucket.refill 0).available →
        r.allowed = true ∧ r.reason = none)) ∧
    1 ≤ ((mkThrottle cfgBasic 0).rpmBucket.refill 0).available ∧
    ((mkThrottle cfgBasic 0).tpmBucket.refill 0).available < 1500 ∧
    (0 : ℚ) < ((mkThrottle cfgBasic 0).tpmBucket.timeUntilTokens 1500 0).1 :=
  ⟨by norm_num,
   C3_canProcess_order (mkThrottle cfgBasic 0) 1500 0 (by norm_num),
   by norm_num [mkThrottle, cfgBasic, jsOrQ, TokenBucket.refill],
   by norm_num [mkThrottle, cfgBasic, jsOrQ, TokenBucket.refill],
   by
     have h : ((mkThrottle cfgBasic 0).tpmBucket.timeUntilTokens 1500 0).1
         = ((⌈(1500 - (1000 : ℚ)) / (1000 / 60) * 1000⌉ : ℤ) : ℚ) := by
       norm_num [mkThrottle, cfgBasic, jsOrQ, TokenBucket.timeUntilTokens,
         TokenBucket.refill]
     rw [h]
     have : (⌈(1500 - (1000 : ℚ)) / (1000 / 60) * 1000⌉ : ℤ) = 30000 := by
       rw [Int.ceil_eq_iff]
       norm_num
     rw [this]
     norm_num⟩

/-- C7: a bucket built by the validated constructor (capacity > 0,
refill rate > 0, initial tokens within bounds) satisfies
`0 ≤ available ≤ capacity` after every sequence of consume, refund,
reset, state-restore, and lazy refills (time advances). -/
theorem C7_bucket_invariant (capacity refillRate : ℚ) (initialTokens : Option ℚ)
    (now : ℚ) (b : TokenBucket)
    (hb : TokenBucket.create capacity refillRate initialTokens now = .ok b)
    (ops : List BucketOp) :
    0 ≤ (b.applyOps ops).available ∧
      (b.applyOps ops).available ≤ (b.applyOps ops).capacity := by
  obtain ⟨h1, h2, h3, h4, -, -⟩ := TokenBucket.create_ok _ _ _ _ b hb
  exact TokenBucket.applyOps_bounds ops b (le_of_lt h1) (le_of_lt h2) h3 h4

/-- Witness for C7: a bucket with capacity 100, rate 10/s, run through a
consume, a refund, a refill, a reset and a state-restore. -/
theorem C7_bucket_invariant_witness :
    TokenBucket.create 100 10 none 0 =
      .ok { capacity := 100, available := 100, refillRate := 10, lastRefill := 0 } ∧
    (0 ≤ (TokenBucket.applyOps
        { capacity := 100, available := 100, refillRate := 10, lastRefill := 0 }
        [.consumeAt 30 1000, .refundAt 5, .refillAt 2000, .resetAt 3000,
         .restoreAt { available := 20, capacity := 100, lastRefill := 3000 }]).available ∧
      (TokenBucket.applyOps
        { capacity := 100, available := 100, refillRate := 10, lastRefill := 0 }
        [.consumeAt 30 1000, .refundAt 5, .refillAt 2000, .resetAt 3000,
         .restoreAt { available := 20, capacity := 100, lastRefill := 3000 }]).available ≤
      (TokenBucket.applyOps
        { capacity := 100, available := 100, refillRate := 10, lastRefill := 0 }
        [.consumeAt 30 1000, .refundAt 5, .refillAt 2000, .resetAt 3000,
         .restoreAt { available := 20, capacity := 100, lastRefill := 3000 }]).capacity) :=
  ⟨by norm_num [TokenBucket.create],
   C7_bucket_invariant 100 10 none 0 _ (by norm_num [TokenBucket.create]) _⟩

/-- C8: for a bucket within bounds with positive refill rate, the lazy
refill realizes `min(capacity, available + elapsedSeconds × refillRate)`
for any nonnegative elapsed time, is monotone non-decreasing in the
clock value, never decreases `available`, caps at capacity, and is
idempotent at a fixed clock value. -/
theorem C8_refill_formula (b : TokenBucket)
    (_h0 : 0 ≤ b.available) (h1 : b.available ≤ b.capacity) (hr : 0 < b.refillRate) :
    (∀ e : ℚ, 0 ≤ e →
      (b.refill (b.lastRefill + e)).available =
        min b.capacity (b.available + e / 1000 * b.refillRate)) ∧
    (∀ now₁ now₂ : ℚ, now₁ ≤ now₂ →
      (b.refill now₁).available ≤ (b.refill now₂).available) ∧
    (∀ now : ℚ, b.available ≤ (b.refill now).available) ∧
    (∀ now : ℚ, (b.refill now).available ≤ b.capacity) ∧
    (∀ now : ℚ, (b.refill now).refill now = b.refill now) := by
  refine ⟨?_, ?_, ?_, ?_, ?_⟩
  · intro e he
    have harg : b.lastRefill + e - b.lastRefill = e := by ring
    rcases eq_or_lt_of_le he with he0 | hepos
    · rw [TokenBucket.refill_of_nonpos _ _ (by rw [harg, ← he0]; norm_num)]
      rw [← he0]
      norm_num [min_eq_right h1]
    · rw [TokenBucket.refill_of_pos _ _ (by rw [harg]; positivity), harg]
  · intro now₁ now₂ h
    exact TokenBucket.refill_mono b now₁ now₂ (le_of_lt hr) h1 h
  · intro now
    exact TokenBucket.le_refill b now (le_of_lt hr) h1
  · intro now
    exact TokenBucket.refill_le_capacity b now h1
  · intro now
    exact TokenBucket.refill_idem b now

/-- Witness for C8 at the spec's example: capacity 100, rate 10/s, start
at 50 — 70 tokens after 2 s, capped at 100 (not 150) after 10 s. -/
theorem C8_refill_formula_witness :
    (0 ≤ bucketExample.available ∧ bucketExample.available ≤ bucketExample.capacity ∧
      0 < bucketExample.refillRate) ∧
    (bucketExample.refill 2000).available = 70 ∧
    (bucketExample.refill 10000).available = 100 ∧
    (∀ now : ℚ, (bucketExample.refill now).refill now = bucketExample.refill now) :=
  ⟨⟨by norm_num [bucketExample], by norm_num [bucketExample], by norm_num [bucketExample]⟩,
   by norm_num [bucketExample, TokenBucket.refill],
   by norm_num [bucketExample, TokenBucket.refill],
   (C8_refill_formula bucketExample (by norm_num [bucketExample])
     (by norm_num [bucketExample]) (by norm_num [bucketExample])).2.2.2.2⟩

/-- C9: `getState` followed by `restoreState` into a bucket of the same
capacity reproduces `available` and `lastRefill` exactly; and
`restoreState` fails with an invalid-state error (mutating nothing — the
source validates fully before assigning) whenever the snapshot's
`available` lies outside `[0, capacity]` or its capacity differs from
the live bucket's. -/
theorem C9_state_roundtrip (b b2 : TokenBucket) (now : ℚ)
    (hcap : b2.capacity = b.capacity)
    (h0 : 0 ≤ b.available) (h1 : b.available ≤ b.capacity) (hr : 0 ≤ b.refillRate) :
    (∃ b3, b2.restoreState (b.getState now).1 = .ok b3 ∧
      b3.available = (b.getState now).1.available ∧
      b3.lastRefill = (b.getState now).1.lastRefill ∧
      b3.capacity = b2.capacity ∧ b3.refillRate = b2.refillRate) ∧
    (∀ s : TokenBucketState,
      s.available < 0 ∨ b.capacity < s.available ∨ s.capacity ≠ b.capacity →
      ∃ msg, b.restoreState s = .error (.invalidState msg)) := by
  constructor
  · have hs1 : (b.getState now).1.available = (b.refill now).available := rfl
    have hs2 : (b.getState now).1.capacity = b.capacity := by
      show (b.refill now).capacity = b.capacity
      simp
    have hok : ¬ ((b.getState now).1.available < 0 ∨
        (b.getState now).1.capacity < (b.getState now).1.available) := by
      push_neg
      rw [hs1, hs2]
      exact ⟨TokenBucket.refill_nonneg b now (le_trans h0 h1) hr h0,
        TokenBucket.refill_le_capacity b now h1⟩
    rw [TokenBucket.restoreState_of_valid b2 _ hok (by rw [hs2, hcap])]
    exact ⟨_, rfl, rfl, rfl, rfl, rfl⟩
  · intro s hs
    apply TokenBucket.restoreState_of_invalid
    rcases hs with h | h | h
    · exact Or.inl h
    · by_cases hc : s.capacity = b.capacity
      · exact Or.inr (Or.inl (hc ▸ h))
      · exact Or.inr (Or.inr hc)
    · exact Or.inr (Or.inr h)

/-- Witness for C9: export the example bucket's state at clock 2000 and
restore it into a same-capacity bucket; also a failing restore. -/
theorem C9_state_roundtrip_witness :
    bucketRestoreTarget.capacity = bucketExample.capacity ∧
    (∃ b3, bucketRestoreTarget.restoreState (bucketExample.getState 2000).1 = .ok b3 ∧
      b3.available = (bucketExample.getState 2000).1.available ∧
      b3.lastRefill = (bucketExample.getState 2000).1.lastRefill ∧
      b3.capacity = bucketRestoreTarget.capacity ∧
      b3.refillRate = bucketRestoreTarget.refillRate) ∧
    (∃ msg, bucketExample.restoreState badSnapshot =
      .error (.invalidState msg)) := by
  have h := C9_state_roundtrip bucketExample bucketRestoreTarget 2000
    (by norm_num [bucketExample, bucketRestoreTarget]) (by norm_num [bucketExample])
    (by norm_num [bucketExample]) (by norm_num [bucketExample])
  exact ⟨by norm_num [bucketExample, bucketRestoreTarget], h.1,
    h.2 badSnapshot (by norm_num [bucketExample, badSnapshot])⟩

/-- C4 (amended): the efficiency reported by `getMetrics` is computed on
the pruned ledger's most recent `efficiencyWindowSize` records: an empty
window yields 1.0 (not 0.85); a nonempty window with no reconciled
record (no `actualTokens`) yields the fixed fallback 0.85; otherwise it
is the mean of the per-record accuracy ratio (min/max, with both-zero
counting 1 and exactly-one-zero counting 0) over the reconciled records. -/
theorem C4_efficiency (t : Throttle) (now : ℚ) :
    (Throttle.sliceLast (t.cleanupHistory now).consumptionHistory
        t.efficiencyWindowSize = [] →
      t.getMetricsEfficiency now = 1) ∧
    (Throttle.sliceLast (t.cleanupHistory now).consumptionHistory
        t.efficiencyWindowSize ≠ [] →
      (Throttle.sliceLast (t.cleanupHistory now).consumptionHistory
        t.efficiencyWindowSize).filter (fun r => r.actualTokens.isSome) = [] →
      t.getMetricsEfficiency now = 17 / 20) ∧
    (∀ reconciled,
      reconciled = (Throttle.sliceLast (t.cleanupHistory now).consumptionHistory
        t.efficiencyWindowSize).filter (fun r => r.actualTokens.isSome) →
      reconciled ≠ [] →
      t.getMetricsEfficiency now =
        (reconciled.foldl (fun acc r =>
          acc + Throttle.accuracyOf r.estimatedTokens (r.actualTokens.getD 0)) 0) /
          reconciled.length) := by
  refine ⟨?_, ?_, ?_⟩
  · intro hw
    unfold Throttle.getMetricsEfficiency Throttle.calculateEfficiency
    rw [Throttle.cleanupHistory_efficiencyWindowSize, hw]
    simp
  · intro hw hrec
    unfold Throttle.getMetricsEfficiency Throttle.calculateEfficiency
    rw [Throttle.cleanupHistory_efficiencyWindowSize]
    rw [if_neg (by simpa [List.length_eq_zero] using hw), hrec]
    simp
  · intro reconciled hdef hne
    unfold Throttle.getMetricsEfficiency Throttle.calculateEfficiency
    rw [Throttle.cleanupHistory_efficiencyWindowSize]
    have hw : Throttle.sliceLast (t.cleanupHistory now).consumptionHistory
        t.efficiencyWindowSize ≠ [] := by
      intro hc
      apply hne
      rw [hdef, hc]
      rfl
    rw [if_neg (by simpa [List.length_eq_zero] using hw), ← hdef,
      if_neg (by simpa [List.length_eq_zero] using hne)]

/-- Witness for C4 (amended): a ledger with one unreconciled and one
reconciled record (estimate 100, actual 50) under the default window. -/
theorem C4_efficiency_witness :
    ([recA].filter (fun r => r.actualTokens.isSome) = [] →
      Throttle.sliceLast (Throttle.cleanupHistory throttleA 0).consumptionHistory
          throttleA.efficiencyWindowSize ≠ [] →
      True) ∧
    Throttle.sliceLast (Throttle.cleanupHistory throttleA 0).consumptionHistory
        throttleA.efficiencyWindowSize ≠ [] ∧
    (Throttle.sliceLast (Throttle.cleanupHistory throttleA 0).consumptionHistory
        throttleA.efficiencyWindowSize).filter (fun r => r.actualTokens.isSome) = [] ∧
    throttleA.getMetricsEfficiency 0 = 17 / 20 := by
  have hhist : (Throttle.cleanupHistory throttleA 0).consumptionHistory = [recA] := by
    norm_num [Throttle.cleanupHistory, throttleA, recA, List.filter]
  have hslice : Throttle.sliceLast (Throttle.cleanupHistory throttleA 0).consumptionHistory
      throttleA.efficiencyWindowSize = [recA] := by
    rw [hhist]
    norm_num [Throttle.sliceLast, throttleA]
  have hrec : (Throttle.sliceLast (Throttle.cleanupHistory throttleA 0).consumptionHistory
      throttleA.efficiencyWindowSize).filter (fun r => r.actualTokens.isSome) = [] := by
    rw [hslice]
    simp [recA]
  refine ⟨fun _ _ => trivial, by simp [hslice], hrec, ?_⟩
  exact (C4_efficiency throttleA 0).2.1 (by simp [hslice]) hrec

/-- Counterexample for C4: a fresh engine has an *empty* efficiency
window, and `getMetrics` reports efficiency 1.0 there — not the 0.85 the
claim asserts for every window without reconciled records. -/
theorem C4_counterexample :
    (mkThrottle cfgBasic 0).getMetricsEfficiency 0 = 1 ∧ (1 : ℚ) ≠ 17 / 20 := by
  constructor
  · norm_num [Throttle.getMetricsEfficiency, Throttle.calculateEfficiency,
      Throttle.cleanupHistory, Throttle.sliceLast, mkThrottle, cfgBasic,
      jsOrNat, jsOrQ, List.filter]
  · norm_num

/-- C5 (amended): `cleanupHistory` — invoked by `consume`, `getMetrics`,
`getConsumptionHistory` and `setMaxHistoryRecords`, but *not* by
`adjustConsumption` — first drops every record with
`timestamp ≤ now − retention`, then, if the ledger still exceeds
`maxRecords`, evicts exactly the oldest excess so that at most
`maxRecords` of the newest records remain (the result is a suffix of the
retention-filtered ledger). -/
theorem C5_retention_eviction (t : Throttle) (now : ℚ) :
    (t.cleanupHistory now).consumptionHistory =
      (if t.maxHistoryRecords <
          (t.consumptionHistory.filter
            (fun r => decide (now - t.historyRetentionMs < r.timestamp))).length
       then (t.consumptionHistory.filter
          (fun r => decide (now - t.historyRetentionMs < r.timestamp))).drop
            ((t.consumptionHistory.filter
              (fun r => decide (now - t.historyRetentionMs < r.timestamp))).length -
              t.maxHistoryRecords)
       else t.consumptionHistory.filter
          (fun r => decide (now - t.historyRetentionMs < r.timestamp))) ∧
    (∀ r ∈ (t.cleanupHistory now).consumptionHistory,
      now - t.historyRetentionMs < r.timestamp) ∧
    (t.cleanupHistory now).consumptionHistory.length ≤ t.maxHistoryRecords ∧
    (t.cleanupHistory now).consumptionHistory <:+
      t.consumptionHistory.filter
        (fun r => decide (now - t.historyRetentionMs < r.timestamp)) :=
  ⟨rfl, Throttle.cleanupHistory_fresh t now, Throttle.cleanupHistory_length_le t now,
   Throttle.cleanupHistory_suffix t now⟩

/-- Counterexample for C5: `adjustConsumption` is a mutating engine call
that does not prune — reconciling request "a" at clock 100000 (retention
60000 ms) leaves the stale record (timestamp 0 ≤ 100000 − 60000) in the
ledger. -/
theorem C5_counterexample :
    (mkThrottle cfgBasic 0).consume "a" 100 0 = .ok (true, throttleA) ∧
    throttleA.adjustConsumption "a" 100 100000 = .ok throttleC5 ∧
    ∃ r ∈ throttleC5.consumptionHistory,
      r.timestamp ≤ 100000 - throttleC5.historyRetentionMs := by
  refine ⟨?_, ?_, ?_⟩
  · rw [Throttle.consume_allowed_eq (mkThrottle cfgBasic 0) "a" 100 0 (by decide)
      (by norm_num [mkThrottle, cfgBasic])
      (by norm_num [mkThrottle, cfgBasic, jsOrQ, TokenBucket.refill])
      (by norm_num [mkThrottle, cfgBasic, jsOrQ, TokenBucket.refill])]
    norm_num [mkThrottle, cfgBasic, jsOrQ, jsOrNat, TokenBucket.refill,
      Throttle.cleanupHistory, throttleA, recA, List.filter]
  · rw [Throttle.adjust_zero throttleA "a" 100 100000 recA (by norm_num)
      (by simp [throttleA, recA]) (by norm_num [recA])]
    norm_num [throttleA, throttleC5, recA, recC5, Throttle.updateFirstRecord]
  · refine ⟨recC5, by simp [throttleC5], ?_⟩
    norm_num [throttleC5, throttleA, recC5]

/-- C10: the engine never enforces `requestId` uniqueness. A `consume`
that passes admission appends its record even when the ledger already
holds one with the same id (the per-id record count grows to ≥ 2), and
any successful `adjustConsumption` locates and updates only the first
(earliest-inserted) record with that id, leaving every other record —
including later duplicates — untouched. -/
theorem C10_duplicate_request_ids (t : Throttle) (rid : String) (est actual now : ℚ) :
    (jsIsBlank rid = false → 0 ≤ est → 0 ≤ t.compensationDebt →
      1 ≤ (t.rpmBucket.refill now).available →
      est + t.compensationDebt ≤ (t.tpmBucket.refill now).available →
      (∀ r ∈ t.consumptionHistory, now - t.historyRetentionMs < r.timestamp) →
      0 < t.historyRetentionMs →
      t.consumptionHistory.length + 1 ≤ t.maxHistoryRecords →
      1 ≤ t.consumptionHistory.countP (fun r => r.requestId = rid) →
      ∃ t₂, t.consume rid est now = .ok (true, t₂) ∧
        t₂.consumptionHistory.countP (fun r => r.requestId = rid) =
          t.consumptionHistory.countP (fun r => r.requestId = rid) + 1 ∧
        2 ≤ t₂.consumptionHistory.countP (fun r => r.requestId = rid)) ∧
    (∀ pre record post t₂,
      t.consumptionHistory = pre ++ record :: post →
      record.requestId = rid →
      (∀ x ∈ pre, x.requestId ≠ rid) →
      t.adjustConsumption rid actual now = .ok t₂ →
      t₂.consumptionHistory =
        pre ++ ({ record with tokens := actual, actualTokens := some actual } :: post)) := by
  constructor
  · intro hid hest hdebt hrpm htpm hfresh hret hlen hdup
    obtain ⟨t₂, hcons, hhist⟩ : ∃ t₂, t.consume rid est now = .ok (true, t₂) ∧
        t₂.consumptionHistory = t.consumptionHistory ++
          [{ timestamp := now, tokens := est, requestId := rid,
             estimatedTokens := est, actualTokens := none,
             compensationDebt := t.compensationDebt }] := by
      refine ⟨_, Throttle.consume_allowed_eq t rid est now hid (by linarith) hrpm htpm,
        Throttle.cleanupHistory_id _ now ?_ ?_⟩
      · intro r hr
        show now - t.historyRetentionMs < r.timestamp
        rcases List.mem_append.mp hr with hr | hr
        · exact hfresh r hr
        · have : r.timestamp = now := by
            rcases List.mem_singleton.mp hr with rfl
            rfl
          rw [this]
          linarith
      · simpa using hlen
    refine ⟨t₂, hcons, ?_⟩
    rw [hhist, List.countP_append]
    constructor
    · simp
    · have : (1 : ℕ) ≤ List.countP (fun r => decide (r.requestId = rid))
          [({ timestamp := now, tokens := est, requestId := rid,
              estimatedTokens := est, actualTokens := none,
              compensationDebt := t.compensationDebt } : ConsumptionRecord)] := by
        simp
      omega
  · intro pre record post t₂ hh hr hpre hok
    have := Throttle.adjust_ok_shape t rid actual now t₂ hok
    rw [hh] at this
    rw [this, Throttle.updateFirstRecord_append pre record post rid _ hpre hr]

/-- Witness for C10: `throttleA` already holds a record with id "a"; a
second `consume("a", 50)` and an `adjustConsumption("a", 100)` satisfy
all the hypotheses (for the adjust part, `throttleA`'s ledger decomposes
as `[] ++ recA :: []`, and reconciliation to 100 succeeds). -/
theorem C10_duplicate_request_ids_witness :
    (∃ t₂, throttleA.consume "a" 50 0 = .ok (true, t₂) ∧
      t₂.consumptionHistory.countP (fun r => r.requestId = "a") =
        throttleA.consumptionHistory.countP (fun r => r.requestId = "a") + 1 ∧
      2 ≤ t₂.consumptionHistory.countP (fun r => r.requestId = "a")) ∧
    throttleC5.consumptionHistory =
      [] ++ { recA with tokens := 100, actualTokens := some 100 } :: [] := by
  have hadj : throttleA.adjustConsumption "a" 100 0 = .ok throttleC5 := by
    rw [Throttle.adjust_zero throttleA "a" 100 0 recA (by norm_num)
      (by simp [throttleA, recA]) (by norm_num [recA])]
    norm_num [throttleA, throttleC5, recA, recC5, Throttle.updateFirstRecord]
  constructor
  · exact (C10_duplicate_request_ids throttleA "a" 50 100 0).1 (by decide)
      (by norm_num) (by norm_num [throttleA])
      (by norm_num [throttleA, TokenBucket.refill])
      (by norm_num [throttleA, TokenBucket.refill])
      (by
        intro r hr
        simp only [throttleA, List.mem_singleton] at hr
        subst hr
        norm_num [recA, throttleA])
      (by norm_num [throttleA]) (by norm_num [throttleA])
      (by simp [throttleA, recA])
  · exact (C10_duplicate_request_ids throttleA "a" 50 100 0).2 [] recA [] throttleC5
      (by simp [throttleA]) (by simp [recA]) (by simp) hadj

end LLMThrottleSpec
